import Mathlib

/-!
Verification of the Rasp interpreter (a small Lisp-style language: lexer,
type-alias gatherer, bytecode compiler and stack VM) against its
natural-language specification.

This file is a shallow embedding of the relevant Rust sources:
  * `src/vm.rs`      — runtime `Value`, the `VM` state and its `run` loop;
  * `src/builtins.rs`— the intrinsic functions (`=`, `append`, `stdopen`, ...);
  * `src/lexer.rs`   — positions, ranges, tokens and `next_token`;
  * `src/ast.rs`     — the tree node type;
  * `src/internal.rs`— `Type`, `TypeTable`, `Param`, `Function`, `FunTable`;
  * `src/gatherer.rs`— the `&type` gatherer and `gather_and_link`;
  * `src/bytecode.rs`— the instruction set and the `ToBytecode` lowering.

Modelling conventions: Rust `f64` is modelled by the inductive `F64` below
(NaN, signed infinities, and finite values represented exactly as rationals;
IEEE comparison semantics are kept — NaN compares unequal to everything,
while finite arithmetic is exact rather than rounded, which no claim here
depends on).  Rust `panic!`/`expect`/`unreachable!` aborts are a distinct
outcome constructor, separate from propagated `Result::Err` errors.
`HashMap`s are modelled as association lists whose lookup returns the most
recently inserted binding, which is observationally equivalent for the
operations the program uses.  Host system calls (`open`, `close`, `read`,
`write`) are out-of-scope external collaborators and appear as an abstract
`Host` oracle.
-/

/-! ## The `f64` model -/

/-- Model of Rust `f64`: NaN, infinities (the `Bool` is `true` for `+∞`),
and finite values represented exactly by rationals (`+0.0`/`-0.0` are
conflated, matching `f64::eq` which identifies them). -/
inductive F64 where
  | nan : F64
  | inf : Bool → F64
  | fin : ℚ → F64
deriving DecidableEq, Repr

namespace F64

/-- IEEE-754 equality as used by the derived `PartialEq` on `Value`:
NaN is unequal to everything, including itself. -/
def beq : F64 → F64 → Bool
  | nan, _ => false
  | _, nan => false
  | inf a, inf b => a == b
  | fin a, fin b => a == b
  | _, _ => false

def neg : F64 → F64
  | nan => nan
  | inf s => inf !s
  | fin q => fin (-q)

def add : F64 → F64 → F64
  | nan, _ => nan
  | _, nan => nan
  | inf a, inf b => if a == b then inf a else nan
  | inf a, fin _ => inf a
  | fin _, inf b => inf b
  | fin a, fin b => fin (a + b)

def sub (a b : F64) : F64 := add a (neg b)

def mul : F64 → F64 → F64
  | nan, _ => nan
  | _, nan => nan
  | inf a, inf b => inf (a == b)
  | inf a, fin q => if q = 0 then nan else inf (a == decide (0 < q))
  | fin q, inf b => if q = 0 then nan else inf (b == decide (0 < q))
  | fin a, fin b => fin (a * b)

def div : F64 → F64 → F64
  | nan, _ => nan
  | _, nan => nan
  | inf _, inf _ => nan
  | inf a, fin q => inf (a == decide (0 ≤ q))
  | fin _, inf _ => fin 0
  | fin a, fin b =>
    if b = 0 then (if a = 0 then nan else inf (decide (0 ≤ a))) else fin (a / b)

/-- Textual form (`f64`'s `Display`); the exact decimal rendering of Rust is
approximated, no claim depends on it. -/
def toStr : F64 → String
  | nan => "NaN"
  | inf true => "inf"
  | inf false => "-inf"
  | fin q => toString q.num ++ (if q.den == 1 then "" else "/" ++ toString q.den)

end F64

/-! ## Runtime values (`src/vm.rs`, `enum Value`) -/

/-- Runtime value of the VM (`vm::Value`). -/
inductive Value where
  | str : String → Value
  | num : F64 → Value
  | ident : String → Value
  | vlist : List Value → Value
  | boolean : Bool → Value
  | startArgs : Int → Value
  | endArgs : Value
deriving Repr

namespace Value

/-- `Value::type_str`. -/
def typeStr : Value → String
  | str _ => "string"
  | vlist _ => "list"
  | num _ => "number"
  | ident _ => "identifier"
  | boolean _ => "boolean"
  | startArgs _ => "startargs"
  | endArgs => "endargs"

/-- `Value::is_listy`. -/
def isListy : Value → Bool
  | str _ => true
  | vlist _ => true
  | _ => false

/-- `Value::is_list`. -/
def isList : Value → Bool
  | vlist _ => true
  | _ => false

/-- `Value::is_string`. -/
def isString : Value → Bool
  | str _ => true
  | _ => false

/-- `Value::is_number`. -/
def isNumber : Value → Bool
  | num _ => true
  | _ => false

def isIdent : Value → Bool
  | ident _ => true
  | _ => false

/-- `Value::is_end_args`. -/
def isEndArgs : Value → Bool
  | endArgs => true
  | _ => false

end Value

mutual

/-- Structural equality on values: the `#[derive(PartialEq)]` on `vm::Value`,
with `F64.beq` at `Number` leaves. -/
def Value.beq : Value → Value → Bool
  | .str a, .str b => a == b
  | .num a, .num b => F64.beq a b
  | .ident a, .ident b => a == b
  | .vlist a, .vlist b => Value.beqList a b
  | .boolean a, .boolean b => a == b
  | .startArgs a, .startArgs b => a == b
  | .endArgs, .endArgs => true
  | _, _ => false

/-- Pointwise equality of value lists (the derived `PartialEq` on `Vec<Value>`). -/
def Value.beqList : List Value → List Value → Bool
  | [], [] => true
  | a :: as_, b :: bs => Value.beq a b && Value.beqList as_ bs
  | _, _ => false

end

mutual

/-- A value contains no NaN number anywhere inside it. -/
def Value.nanFree : Value → Bool
  | .num .nan => false
  | .vlist l => Value.nanFreeList l
  | _ => true

def Value.nanFreeList : List Value → Bool
  | [] => true
  | a :: as_ => Value.nanFree a && Value.nanFreeList as_

end

/-! ### Laws of structural equality -/

theorem lawful_beq_symm {α : Type} [BEq α] [LawfulBEq α] (a b : α) :
    (a == b) = (b == a) := by
  by_cases h : a = b
  · subst h; rfl
  · rw [beq_eq_false_iff_ne.mpr h, beq_eq_false_iff_ne.mpr (Ne.symm h)]

theorem F64.beqSymm (a b : F64) : F64.beq a b = F64.beq b a := by
  cases a <;> cases b <;> simp only [F64.beq] <;> rw [lawful_beq_symm]

mutual

theorem Value.beq_symm : (a b : Value) → Value.beq a b = Value.beq b a
  | .str a, .str b => by simp only [Value.beq]; rw [lawful_beq_symm]
  | .num a, .num b => by simp only [Value.beq]; rw [F64.beqSymm]
  | .ident a, .ident b => by simp only [Value.beq]; rw [lawful_beq_symm]
  | .vlist a, .vlist b => by simp only [Value.beq]; rw [Value.beqList_symm]
  | .boolean a, .boolean b => by simp only [Value.beq]; rw [lawful_beq_symm]
  | .startArgs a, .startArgs b => by simp only [Value.beq]; rw [lawful_beq_symm]
  | .endArgs, .endArgs => rfl
  | .str _, .num _ => rfl
  | .str _, .ident _ => rfl
  | .str _, .vlist _ => rfl
  | .str _, .boolean _ => rfl
  | .str _, .startArgs _ => rfl
  | .str _, .endArgs => rfl
  | .num _, .str _ => rfl
  | .num _, .ident _ => rfl
  | .num _, .vlist _ => rfl
  | .num _, .boolean _ => rfl
  | .num _, .startArgs _ => rfl
  | .num _, .endArgs => rfl
  | .ident _, .str _ => rfl
  | .ident _, .num _ => rfl
  | .ident _, .vlist _ => rfl
  | .ident _, .boolean _ => rfl
  | .ident _, .startArgs _ => rfl
  | .ident _, .endArgs => rfl
  | .vlist _, .str _ => rfl
  | .vlist _, .num _ => rfl
  | .vlist _, .ident _ => rfl
  | .vlist _, .boolean _ => rfl
  | .vlist _, .startArgs _ => rfl
  | .vlist _, .endArgs => rfl
  | .boolean _, .str _ => rfl
  | .boolean _, .num _ => rfl
  | .boolean _, .ident _ => rfl
  | .boolean _, .vlist _ => rfl
  | .boolean _, .startArgs _ => rfl
  | .boolean _, .endArgs => rfl
  | .startArgs _, .str _ => rfl
  | .startArgs _, .num _ => rfl
  | .startArgs _, .ident _ => rfl
  | .startArgs _, .vlist _ => rfl
  | .startArgs _, .boolean _ => rfl
  | .startArgs _, .endArgs => rfl
  | .endArgs, .str _ => rfl
  | .endArgs, .num _ => rfl
  | .endArgs, .ident _ => rfl
  | .endArgs, .vlist _ => rfl
  | .endArgs, .boolean _ => rfl
  | .endArgs, .startArgs _ => rfl

theorem Value.beqList_symm : (a b : List Value) → Value.beqList a b = Value.beqList b a
  | [], [] => rfl
  | [], _ :: _ => rfl
  | _ :: _, [] => rfl
  | a :: as_, b :: bs => by
    simp only [Value.beqList]
    rw [Value.beq_symm, Value.beqList_symm]

end

theorem F64.beq_refl_of_not_nan (a : F64) (h : a ≠ F64.nan) : F64.beq a a = true := by
  cases a with
  | nan => exact absurd rfl h
  | inf s => simp [F64.beq]
  | fin q => simp [F64.beq]

mutual

theorem Value.beq_refl_of_nanFree : (a : Value) → Value.nanFree a = true → Value.beq a a = true
  | .str a, _ => by simp [Value.beq]
  | .num a, h => by
    simp only [Value.beq]
    apply F64.beq_refl_of_not_nan
    intro hn
    subst hn
    simp [Value.nanFree] at h
  | .ident a, _ => by simp [Value.beq]
  | .vlist a, h => by
    simp only [Value.beq]
    exact Value.beqList_refl_of_nanFree a (by simpa [Value.nanFree] using h)
  | .boolean a, _ => by simp [Value.beq]
  | .startArgs a, _ => by simp [Value.beq]
  | .endArgs, _ => rfl

theorem Value.beqList_refl_of_nanFree :
    (a : List Value) → Value.nanFreeList a = true → Value.beqList a a = true
  | [], _ => rfl
  | a :: as_, h => by
    simp only [Value.nanFreeList, Bool.and_eq_true] at h
    simp only [Value.beqList, Bool.and_eq_true]
    exact ⟨Value.beq_refl_of_nanFree a h.1, Value.beqList_refl_of_nanFree as_ h.2⟩

end

/-! ## Intrinsics (`src/builtins.rs`)

Each builtin receives the VM and transforms its value stack through
`pop_value`/`push`.  `pop_value` on an empty stack panics (`expect`), which is
the `bpanic` outcome below; a `Result::Err` return is `berr`. -/

/-- Outcome of running a builtin on the value stack. -/
inductive BRes where
  | bok : List Value → BRes
  | berr : String → BRes
  | bpanic : String → BRes
deriving Repr

/-- The abstract host (external collaborator): results of the POSIX calls
made by the file intrinsics. -/
structure Host where
  openRet : String → Nat → Int
  closeRet : Int → Int
  writeRet : Int → String → Int
  readRet : Int → Nat → Int × List Nat

/-- The message of `VM::pop_value`'s `expect`. -/
def popPanicMsg : String := "attempted to pop a value off of an empty value stack"

mutual

/-- `builtins::value_to_string`; `none` models the `unreachable!` panic on the
`StartArgs`/`EndArgs` sentinels. -/
def valueToString : Value → Option String
  | .str s => some s
  | .num n => some n.toStr
  | .ident s => some s
  | .boolean b => some (if b then "true" else "false")
  | .vlist l => valueToStringList l
  | .startArgs _ => none
  | .endArgs => none

def valueToStringList : List Value → Option String
  | [] => some ""
  | a :: as_ =>
    match valueToString a, valueToStringList as_ with
    | some s1, some s2 => some (s1 ++ s2)
    | _, _ => none

end

/-- `builtins::string`: pop one value, push its textual form. -/
def stringBuiltin (stack : List Value) : BRes :=
  match stack with
  | [] => .bpanic popPanicMsg
  | item :: rest =>
    match valueToString item with
    | some s => .bok (.str s :: rest)
    | none => .bpanic "internal error: entered unreachable code"

/-- `builtins::append`: pop `first` (top) then `second`; both must be listy and
of the same shape; pushes `second ++ first`. -/
def appendBuiltin (stack : List Value) : BRes :=
  match stack with
  | [] => .bpanic popPanicMsg
  | [_] => .bpanic popPanicMsg
  | first :: second :: rest =>
    if !first.isListy || !second.isListy then
      .berr "append takes only listy items"
    else if first.isList != second.isList then
      .berr "append arguments either must be both Lists or Strings"
    else
      match first, second with
      | .vlist listEnd, .vlist listStart => .bok (.vlist (listStart ++ listEnd) :: rest)
      | .str s1, .str s2 => .bok (.str (s2 ++ s1) :: rest)
      | _, _ => .bpanic "assertion failed"

/-- `builtins::equals`: pop two values, push their structural equality. -/
def equalsBuiltin (stack : List Value) : BRes :=
  match stack with
  | [] => .bpanic popPanicMsg
  | [_] => .bpanic popPanicMsg
  | first :: second :: rest => .bok (.boolean (Value.beq first second) :: rest)

/-- The loop of `builtins::list`: pop until `EndArgs` or the count runs out,
accumulating the popped values in order. -/
def listLoop : Int → List Value → List Value → BRes
  | argCount, stack, acc =>
    if argCount < 0 then .bok (.vlist acc :: stack)
    else
      match stack with
      | [] => .berr "VM error: unexpected end of value stack when popping var args"
      | v :: rest =>
        if v.isEndArgs then .bok (.vlist acc :: rest)
        else listLoop (argCount - 1) rest (acc ++ [v])

/-- `builtins::list`: pop a `StartArgs` count, then collect values up to
`EndArgs` into a `List`. -/
def listBuiltinFn (stack : List Value) : BRes :=
  match stack with
  | [] => .bpanic popPanicMsg
  | v :: rest =>
    match v with
    | .startArgs n => listLoop n rest []
    | _ => .bpanic "called start_args() on non-StartArgs vm::Value"

/-- `builtins::is_nil` (`nil?`). -/
def isNilBuiltin (stack : List Value) : BRes :=
  match stack with
  | [] => .bpanic popPanicMsg
  | first :: rest =>
    match first with
    | .str s => .bok (.boolean (s.length == 0) :: rest)
    | .vlist l => .bok (.boolean (l.length == 0) :: rest)
    | v => .berr ("argument to `nil?' function must be listy (instead got " ++ v.typeStr ++ ")")

/-- `builtins::cdr`. -/
def cdrBuiltin (stack : List Value) : BRes :=
  match stack with
  | [] => .bpanic popPanicMsg
  | first :: rest =>
    match first with
    | .str s => .bok (.str (if s.length > 0 then s.drop 1 else "") :: rest)
    | .vlist l => .bok (.vlist (if l.length > 0 then l.drop 1 else []) :: rest)
    | _ => .berr "argument to `cdr' function must be listy"

/-- `builtins::car`. -/
def carBuiltin (stack : List Value) : BRes :=
  match stack with
  | [] => .bpanic popPanicMsg
  | first :: rest =>
    match first with
    | .str s =>
      match s.data with
      | c :: _ => .bok (.str c.toString :: rest)
      | [] => .bok (.str "" :: rest)
    | .vlist l =>
      match l with
      | e :: _ => .bok (e :: rest)
      | [] => .bok (.vlist [] :: rest)
    | _ => .berr "argument to `car' function must be listy"

/-- The shared shape of `builtins::{plus, minus, times, divide}`: pop the right
then the left operand, require numbers, push the combined number. -/
def arithBuiltin (op : F64 → F64 → F64) (msg : String) (stack : List Value) : BRes :=
  match stack with
  | [] => .bpanic popPanicMsg
  | [_] => .bpanic popPanicMsg
  | rightVal :: leftVal :: rest =>
    if !leftVal.isNumber || !rightVal.isNumber then
      .berr (msg ++ " function may only be used on numbers")
    else
      match leftVal, rightVal with
      | .num l, .num r => .bok (.num (op l r) :: rest)
      | _, _ => .bpanic "unreachable"

/-! ### File intrinsics -/

/-- Linux `libc` open flags, as imported by `builtins.rs`. -/
def O_RDONLY : Nat := 0
def O_WRONLY : Nat := 1
def O_RDWR : Nat := 2
def O_CREAT : Nat := 64
def O_TRUNC : Nat := 512
def O_APPEND : Nat := 1024

/-- The fifteen mode strings recognised by `rasp_open`'s `match`. -/
def recognisedModes : List String :=
  ["r", "rb", "w", "wb", "a", "ab", "r+", "rb+", "r+b", "w+", "wb+", "w+b",
   "a+", "ab+", "a+b"]

/-- The `match mode` arm of `rasp_open`; `none` is the `unreachable!()` arm. -/
def openFlags (mode : String) : Option Nat :=
  if mode = "r" ∨ mode = "rb" then some O_RDONLY
  else if mode = "w" ∨ mode = "wb" then some (O_CREAT ||| O_TRUNC ||| O_WRONLY)
  else if mode = "a" ∨ mode = "ab" then some (O_CREAT ||| O_APPEND ||| O_WRONLY)
  else if mode = "r+" ∨ mode = "rb+" ∨ mode = "r+b" then some (O_APPEND ||| O_RDWR)
  else if mode = "w+" ∨ mode = "wb+" ∨ mode = "w+b" then some (O_CREAT ||| O_TRUNC ||| O_RDWR)
  else if mode = "a+" ∨ mode = "ab+" ∨ mode = "a+b" then some (O_CREAT ||| O_APPEND ||| O_RDWR)
  else none

/-- `builtins::rasp_open` (`stdopen`): pop the mode then the path, both must be
strings; an unrecognised mode hits `unreachable!()` (a panic, not an error);
otherwise the host's `open` result is pushed as a `Number`. -/
def raspOpen (host : Host) (stack : List Value) : BRes :=
  match stack with
  | [] => .bpanic popPanicMsg
  | [_] => .bpanic popPanicMsg
  | modeVal :: pathVal :: rest =>
    if !modeVal.isString then .berr "file mode must be a string"
    else if !pathVal.isString then .berr "file path must be a string"
    else
      match modeVal, pathVal with
      | .str mode, .str path =>
        match openFlags mode with
        | none => .bpanic "internal error: entered unreachable code"
        | some flags => .bok (.num (.fin (host.openRet path flags)) :: rest)
      | _, _ => .bpanic "unreachable"

/-- Whether a finite `f64` is a whole number with `floor` equal to itself
(`fd_num.floor() != fd_num` checks in the file intrinsics). -/
def F64.isIntegral : F64 → Bool
  | .fin q => q.den == 1
  | _ => false

def F64.isNegative : F64 → Bool
  | .fin q => decide (q < 0)
  | .inf s => !s
  | .nan => false

/-- `builtins::rasp_close` (`stdclose`). -/
def raspClose (host : Host) (stack : List Value) : BRes :=
  match stack with
  | [] => .bpanic popPanicMsg
  | fdVal :: rest =>
    if !fdVal.isNumber then .berr "file descriptor must be a number"
    else
      match fdVal with
      | .num n =>
        if !n.isIntegral then .berr "file descriptor must be an integer"
        else
          match n with
          | .fin q => .bok (.num (.fin (host.closeRet q.num)) :: rest)
          | _ => .bpanic "unreachable"
      | _ => .bpanic "unreachable"

/-- `builtins::rasp_write` (`stdwrite`).  The host oracle stands for the
`write` call (which the source hands `buffer.len() + 1` bytes). -/
def raspWrite (host : Host) (stack : List Value) : BRes :=
  match stack with
  | [] => .bpanic popPanicMsg
  | [_] => .bpanic popPanicMsg
  | bufferVal :: fdVal :: rest =>
    if !bufferVal.isString then .berr "buffer must be a string"
    else if !fdVal.isNumber then .berr "file descriptor must be a number"
    else
      match bufferVal, fdVal with
      | .str buffer, .num n =>
        if !n.isIntegral then .berr "file descriptor must be an integer"
        else if n.isNegative then .berr "file descriptor must be positive"
        else
          match n with
          | .fin q => .bok (.num (.fin (host.writeRet q.num buffer)) :: rest)
          | _ => .bpanic "unreachable"
      | _, _ => .bpanic "unreachable"

/-- `builtins::rasp_read` (`stdread`).  Note: for `count ≥ 1` the source
builds `CString::new` from a zero-filled buffer, whose interior NUL bytes make
it return `Err`, so the `unwrap` panics. -/
def raspRead (host : Host) (stack : List Value) : BRes :=
  match stack with
  | [] => .bpanic popPanicMsg
  | [_] => .bpanic popPanicMsg
  | countVal :: fdVal :: rest =>
    if !countVal.isNumber then .berr "count must be a number "
    else if !fdVal.isNumber then .berr "file descriptor must be a number"
    else
      match countVal, fdVal with
      | .num cn, .num fn =>
        if !fn.isIntegral then .berr "file descriptor must be an integer"
        else if fn.isNegative then .berr "file descriptor must be positive"
        else if !cn.isIntegral then .berr "count must be an integer"
        else if cn.isNegative then .berr "count must be positive"
        else
          match fn, cn with
          | .fin fq, .fin cq =>
            if cq.num.toNat ≥ 1 then
              .bpanic "called unwrap on an Err value: NulError"
            else
              let res := host.readRet fq.num cq.num.toNat
              .bok (.vlist [.num (.fin res.1),
                            .vlist (res.2.map (fun b => .num (.fin b)))] :: rest)
          | _, _ => .bpanic "unreachable"
      | _, _ => .bpanic "unreachable"

/-- Names in the `BUILTIN_FUNCTIONS` map. -/
def builtinNames : List String :=
  ["stdopen", "stdclose", "stdwrite", "stdread", "+", "-", "*", "/",
   "car", "cdr", "nil?", "list", "append", "string", "="]

def isBuiltin (name : String) : Bool := builtinNames.contains name

/-- Dispatch a builtin by name on the value stack (`BUILTIN_FUNCTIONS`). -/
def applyBuiltin (host : Host) (name : String) (stack : List Value) : BRes :=
  if name = "stdopen" then raspOpen host stack
  else if name = "stdclose" then raspClose host stack
  else if name = "stdwrite" then raspWrite host stack
  else if name = "stdread" then raspRead host stack
  else if name = "+" then arithBuiltin F64.add "+" stack
  else if name = "-" then arithBuiltin F64.sub "-" stack
  else if name = "*" then arithBuiltin F64.mul "*" stack
  else if name = "/" then arithBuiltin F64.div "/" stack
  else if name = "car" then carBuiltin stack
  else if name = "cdr" then cdrBuiltin stack
  else if name = "nil?" then isNilBuiltin stack
  else if name = "list" then listBuiltinFn stack
  else if name = "append" then appendBuiltin stack
  else if name = "string" then stringBuiltin stack
  else if name = "=" then equalsBuiltin stack
  else .bpanic "builtin not in table"

/-! ## Claims C7, C8, C10: the `=`, `append` and `stdopen` intrinsics -/

/-- C7 (counterexample): `(= x x)` for `x = Number(NaN)` pushes
`Boolean(false)`, not `Boolean(true)`: structural equality is not reflexive
at NaN (IEEE comparison through the derived `PartialEq`). -/
theorem equals_not_reflexive_at_nan :
    equalsBuiltin [.num .nan, .num .nan] = .bok [.boolean false] := rfl

/-- C7 (amended): `=` is reflexive on every value that contains no NaN, and
symmetric on all values: the result of `(= x y)` equals the result of
`(= y x)` (the value stack holding the two operands in either order). -/
theorem equals_reflexive_nanFree_and_symmetric (x y : Value) (rest : List Value) :
    (Value.nanFree x = true →
      equalsBuiltin (x :: x :: rest) = .bok (.boolean true :: rest))
    ∧ equalsBuiltin (x :: y :: rest) = equalsBuiltin (y :: x :: rest) := by
  constructor
  · intro h
    simp [equalsBuiltin, Value.beq_refl_of_nanFree x h]
  · simp [equalsBuiltin, Value.beq_symm]

/-- C7 (witness). -/
theorem equals_reflexive_nanFree_and_symmetric_witness :
    equalsBuiltin [.str "a", .str "a"] = .bok [.boolean true] :=
  (equals_reflexive_nanFree_and_symmetric (.str "a") (.str "a") []).1 rfl

/-- C8: `append` pops two values; it errors unless both are listy and of the
same shape (both strings or both lists); on success it pushes
(second popped) ++ (first popped); in particular `(append "foo" "bar")`
(caller pushes "foo" then "bar", so "bar" is on top) leaves `String("foobar")`. -/
theorem append_requires_same_shape_and_concats (a b : Value) (rest : List Value) :
    (a.isListy = false ∨ b.isListy = false →
      appendBuiltin (a :: b :: rest) = .berr "append takes only listy items")
    ∧ (a.isListy = true → b.isListy = true → a.isList ≠ b.isList →
      appendBuiltin (a :: b :: rest) =
        .berr "append arguments either must be both Lists or Strings")
    ∧ (∀ s1 s2, a = .str s1 → b = .str s2 →
      appendBuiltin (a :: b :: rest) = .bok (.str (s2 ++ s1) :: rest))
    ∧ (∀ l1 l2, a = .vlist l1 → b = .vlist l2 →
      appendBuiltin (a :: b :: rest) = .bok (.vlist (l2 ++ l1) :: rest))
    ∧ appendBuiltin [.str "bar", .str "foo"] = .bok [.str "foobar"] := by
  refine ⟨?_, ?_, ?_, ?_, rfl⟩
  · intro h
    cases a <;> cases b <;>
      simp_all [appendBuiltin, Value.isListy, Value.isList]
  · intro ha hb hne
    cases a <;> cases b <;>
      simp_all [appendBuiltin, Value.isListy, Value.isList]
  · intro s1 s2 ha hb
    subst ha; subst hb
    rfl
  · intro l1 l2 ha hb
    subst ha; subst hb
    rfl

/-- C8 (witness). -/
theorem append_requires_same_shape_and_concats_witness :
    appendBuiltin [.str "bar", .str "foo"] = .bok [.str "foobar"] :=
  (append_requires_same_shape_and_concats (.str "bar") (.str "foo") []).2.2.2.2

/-- C10: a well-typed `stdopen` call (mode and path both strings) whose mode
is not one of the fifteen recognised forms hits the `unreachable!()` arm and
panics; it neither returns a propagated error nor pushes a result. -/
theorem stdopen_unknown_mode_panics (host : Host) (mode path : String)
    (rest : List Value) (h : mode ∉ recognisedModes) :
    raspOpen host (.str mode :: .str path :: rest) =
      .bpanic "internal error: entered unreachable code" := by
  have hflags : openFlags mode = none := by
    unfold openFlags
    simp only [recognisedModes, List.mem_cons, List.not_mem_nil, or_false] at h
    push_neg at h
    obtain ⟨h1, h2, h3, h4, h5, h6, h7, h8, h9, h10, h11, h12, h13, h14, h15⟩ := h
    simp [h1, h2, h3, h4, h5, h6, h7, h8, h9, h10, h11, h12, h13, h14, h15]
  simp [raspOpen, Value.isString, hflags]

/-- C10 (witness): mode `"x"`. -/
theorem stdopen_unknown_mode_panics_witness :
    raspOpen ⟨fun _ _ => 0, fun _ => 0, fun _ _ => 0, fun _ _ => (0, [])⟩
        [.str "x", .str "p"] =
      .bpanic "internal error: entered unreachable code" :=
  stdopen_unknown_mode_panics _ "x" "p" [] (by decide)

/-! ## Lexer (`src/lexer.rs`) -/

/-- `lexer::Pos`. -/
structure Pos where
  srcIndex : Int
  lineIndex : Int
  colIndex : Int
deriving DecidableEq, Repr

namespace Pos

/-- `Pos::start`. -/
def start : Pos := ⟨-1, 0, -1⟩

/-- `Pos::advance`. -/
def advance (p : Pos) : Pos := { p with srcIndex := p.srcIndex + 1, colIndex := p.colIndex + 1 }

/-- `Pos::line`. -/
def line (p : Pos) : Pos := { p with colIndex := -1, lineIndex := p.lineIndex + 1 }

end Pos

/-- `lexer::Range` (the `stop` field is the source's `end`). -/
structure Range where
  start : Pos
  stop : Pos
deriving DecidableEq, Repr

namespace Range

def endAdvance (r : Range) : Range := { r with stop := r.stop.advance }

def endLine (r : Range) : Range := { r with stop := r.stop.line }

def catchup (r : Range) : Range := { r with start := r.stop }

end Range

/-- `lexer::Token`. -/
inductive Token where
  | none : Token
  | eof : Range → Token
  | lparen : Range → Token
  | rparen : Range → Token
  | identifier : Range → String → Token
  | stringLit : Range → String → Token
  | number : Range → F64 → Token
  | comment : Range → String → Token
  | unknown : Range → Char → Token
  | error : Range → String → Token
deriving Repr

/-- The lexer state (`lexer::Lexer`): the char iterator plus the one-char
lookahead is collapsed into `rest`, whose head is the `peek` field and whose
tail is the remaining iterator (the source establishes exactly this
invariant: `peek` is `None` iff the iterator is exhausted). -/
structure LexState where
  range : Range
  curr : Option Char
  rest : List Char
deriving Repr

namespace LexState

def peek (s : LexState) : Option Char := s.rest.head?

/-- `Lexer::new`. -/
def init (source : String) : LexState :=
  ⟨⟨Pos.start, Pos.start⟩, Option.none, source.data⟩

/-- `Lexer::next`: advance the range end, shift the lookahead into `curr`,
pull the next char, and account for newlines. -/
def next (s : LexState) : LexState :=
  let curr := s.rest.head?
  let r := s.range.endAdvance
  let r := if curr = some '\n' then r.endLine else r
  ⟨r, curr, s.rest.tail⟩

def catchup (s : LexState) : LexState := { s with range := s.range.catchup }

theorem next_rest (s : LexState) : (next s).rest = s.rest.tail := rfl

theorem next_curr (s : LexState) : (next s).curr = s.rest.head? := rfl

end LexState

/-- Whitespace characters skipped by the lexer. -/
def isWs (c : Char) : Bool := c = ' ' ∨ c = '\t' ∨ c = '\r' ∨ c = '\n'

/-- The loop of `Lexer::skip_whitespace`. -/
def skipWs (s : LexState) : LexState :=
  match h : s.rest with
  | [] => s
  | c :: _ => if isWs c then skipWs (s.next) else s
termination_by s.rest.length
decreasing_by rw [LexState.next_rest, h]; simp

/-- `Lexer::skip_whitespace` (the loop, then `range.catchup`). -/
def skipWhitespace (s : LexState) : LexState := (skipWs s).catchup

theorem LexState.rest_ne_nil_of_curr {s : LexState} {c : Char}
    (h : s.next.curr = some c) : s.rest ≠ [] := by
  rw [LexState.next_curr] at h
  intro he
  rw [he] at h
  simp at h

theorem tail_len_lt {α : Type} {l : List α} (h : l ≠ []) : l.tail.length < l.length := by
  cases l with
  | nil => exact absurd rfl h
  | cons a t => simp

theorem tailtail_len_lt {α : Type} {l : List α} (h : l ≠ []) :
    l.tail.tail.length < l.length :=
  calc l.tail.tail.length ≤ l.tail.length := by cases l with | nil => simp | cons a t => cases t <;> simp
    _ < l.length := tail_len_lt h

/-- `Lexer::eat_comment`. -/
def eatComment (s : LexState) : String × LexState :=
  let s1 := s.next
  match h : s1.curr with
  | some '\n' => ("", s1)
  | Option.none => ("", s1)
  | some c =>
    let (food, s2) := eatComment s1
    (c.toString ++ food, s2)
termination_by s.rest.length
decreasing_by
  rw [LexState.next_rest]
  exact tail_len_lt (LexState.rest_ne_nil_of_curr h)

/-- Characters that may continue an identifier (`'*' ..= '~' | '!' | '#' ..= '\''`). -/
def isIdentCont (c : Char) : Bool :=
  ('*' ≤ c ∧ c ≤ '~') ∨ c = '!' ∨ ('#' ≤ c ∧ c ≤ '\'')

/-- `Lexer::eat_identifier`.  The source `expect`s `curr` to be non-EOF, which
all callers guarantee; the default only fills the impossible case. -/
def eatIdentifier (s : LexState) : String × LexState :=
  let c := s.curr.getD ' '
  match h : s.rest with
  | [] => (c.toString, s)
  | p :: _ =>
    if isIdentCont p then
      let (idrest, s2) := eatIdentifier s.next
      (c.toString ++ idrest, s2)
    else (c.toString, s)
termination_by s.rest.length
decreasing_by rw [LexState.next_rest, h]; simp

/-- `Lexer::eat_string`: consume until the closing quote, translating the
three recognised escapes; unknown escapes and EOF are lex errors. -/
def eatString (s : LexState) (acc : String) : Except String String × LexState :=
  let s1 := s.next
  match h : s1.curr with
  | some '"' => (.ok acc, s1)
  | some '\\' =>
    let s2 := s1.next
    match h2 : s2.curr with
    | some 'r' => eatString s2 (acc.push '\r')
    | some 'n' => eatString s2 (acc.push '\n')
    | some 't' => eatString s2 (acc.push '\t')
    | some c => (.error ("unknown escape sequence: \\" ++ c.toString), s2)
    | Option.none => (.error "reached EOF before end of string", s2)
  | some c => eatString s1 (acc.push c)
  | Option.none => (.error "reached EOF before end of string", s1)
termination_by s.rest.length
decreasing_by
  all_goals first
    | (rw [LexState.next_rest, LexState.next_rest]
       exact tailtail_len_lt (LexState.rest_ne_nil_of_curr h))
    | (rw [LexState.next_rest]
       exact tail_len_lt (LexState.rest_ne_nil_of_curr h))

def isDigitChar (c : Char) : Bool := '0' ≤ c ∧ c ≤ '9'

/-- The loop of `Lexer::eat_number`.  The result is `none` when the source
panics: the loop starts with `num_str.push(self.curr.expect(..))`, and when a
digit's lookahead is exhausted (`peek == None`) no `break` fires, `next()` is
still executed and the re-entered loop `expect`s `curr` on `None`. -/
def eatNumAcc (s : LexState) (deci : Bool) (acc : List Char) :
    Option (Except String (List Char) × LexState) :=
  match hc : s.curr with
  | Option.none => Option.none
  | some c =>
    let acc' := acc ++ [c]
    if isDigitChar c then
      match hp : s.peek with
      | some p =>
        if isDigitChar p ∨ p = '.' then eatNumAcc s.next deci acc'
        else if p = ' ' ∨ p = '\t' ∨ p = '\r' ∨ p = '\n' ∨ p = '(' ∨ p = ')' then
          some (.ok acc', s)
        else some (.error ("unexpected character while parsing number: " ++ p.toString), s)
      | Option.none => eatNumAcc s.next deci acc'
    else if c = '.' then
      if deci then some (.error "decimal specified twice in number", s)
      else
        match hp : s.peek with
        | some p =>
          if isDigitChar p then eatNumAcc s.next true acc'
          else some (.error ("unexpected character while parsing number: " ++ p.toString), s)
        | Option.none => some (.error "EOF reached before end of number", s)
    else some (.ok acc', s)
termination_by s.rest.length + (if s.curr.isSome then 1 else 0)
decreasing_by
  all_goals
    rw [LexState.next_rest, LexState.next_curr, hc]
    cases s.rest with
    | nil => simp
    | cons a l => simp

def digitVal (c : Char) : Nat := c.toNat - '0'.toNat

def natOfDigits (l : List Char) : Nat := l.foldl (fun a c => a * 10 + digitVal c) 0

/-- Split the accumulated number at its (at most one) decimal point. -/
def splitDot : List Char → List Char × Option (List Char)
  | [] => ([], Option.none)
  | c :: t =>
    if c = '.' then ([], some t)
    else
      let (i, f) := splitDot t
      (c :: i, f)

/-- `str::parse::<f64>` on the digit strings `eat_number` accumulates
(digits with at most one interior dot, always parseable; the accumulated
`num_str` is modelled by its character list). -/
def parseDec (l : List Char) : ℚ :=
  match splitDot l with
  | (i, Option.none) => (natOfDigits i : ℚ)
  | (i, some f) => (natOfDigits i : ℚ) + (natOfDigits f : ℚ) / ((10 : ℚ) ^ f.length)

/-- `Lexer::eat_number`. -/
def eatNumber (s : LexState) : Option (Except String F64 × LexState) :=
  (eatNumAcc s false []).map (fun r => (r.1.map (fun l => F64.fin (parseDec l)), r.2))

def isIdentStart (c : Char) : Bool :=
  ('*' ≤ c ∧ c ≤ '/') ∨ (':' ≤ c ∧ c ≤ '~') ∨ c = '!' ∨ ('#' ≤ c ∧ c ≤ '\'')

/-- `Lexer::next_token`.  `none` models the panic inside `eat_number`
described above; every other path yields a token. -/
def nextToken (s0 : LexState) : Option (Token × LexState) :=
  let s := (skipWhitespace s0).next
  match s.curr with
  | Option.none =>
    let s' := s.catchup
    some (.eof s'.range, s')
  | some c =>
    if c = ';' then
      let r := s.range
      let (food, s2) := eatComment s
      some (.comment r food, s2.catchup)
    else if c = '(' then
      let s1 := s.catchup
      some (.lparen s1.range, s1.catchup)
    else if c = ')' then
      some (.rparen s.range, s.catchup)
    else if isIdentStart c then
      let r := s.range
      let (id, s2) := eatIdentifier s
      some (.identifier r id, s2.catchup)
    else if c = '"' then
      match eatString s "" with
      | (.ok str, s2) => some (.stringLit s2.range str, s2.catchup)
      | (.error e, s2) => some (.error s2.range e, s2.catchup)
    else if isDigitChar c then
      match eatNumber s with
      | Option.none => Option.none
      | some (.ok n, s2) => some (.number s2.range n, s2.catchup)
      | some (.error e, s2) => some (.error s2.range e, s2.catchup)
    else
      some (.unknown s.range c, s.catchup)

/-! ## Claim C9: lexer totality -/

/-- C9 (code evaluated at the failing input): on the input `"123"` — a number
immediately followed by end of input — `next_token` panics (`self.curr` is
`None` at the top of `eat_number`'s loop, and
`num_str.push(self.curr.expect(..))` aborts), so the token stream never
reaches `EndOfFile`.  With a terminator after the digits the same number
lexes fine, and a malformed number yields an `Error` token as claimed. -/
theorem lexer_number_at_hard_eof_panics :
    nextToken (LexState.init "123") = Option.none
    ∧ (nextToken (LexState.init "123 ")).map (fun p => p.1)
        = some (Token.number ⟨⟨-1, 0, -1⟩, ⟨2, 0, 2⟩⟩ (F64.fin 123))
    ∧ (nextToken (LexState.init "1x")).map (fun p => p.1)
        = some (Token.error ⟨⟨-1, 0, -1⟩, ⟨0, 0, 0⟩⟩
            "unexpected character while parsing number: x") := by
  refine ⟨?_, ?_, ?_⟩ <;>
    simp +decide [nextToken, LexState.init, skipWhitespace, skipWs, LexState.catchup,
      LexState.next, eatNumber, eatNumAcc, isDigitChar, isWs, isIdentStart,
      LexState.peek, Range.catchup, Range.endAdvance, Range.endLine, Pos.advance, Pos.start,
      Except.map, Option.map, parseDec, splitDot, natOfDigits, digitVal]

/-! ## Trees (`src/ast.rs`) -/

/-- `ast::AST`. -/
inductive AST where
  | expr : Range → List AST → AST
  | stringLit : Range → String → AST
  | identifier : Range → String → AST
  | number : Range → F64 → AST
deriving Repr

namespace AST

mutual

/-- `AST::to_value`. -/
def toValue : AST → Value
  | expr _ children => .vlist (toValueList children)
  | stringLit _ s => .str s
  | identifier _ i => .ident i
  | number _ n => .num n

def toValueList : List AST → List Value
  | [] => []
  | a :: as_ => toValue a :: toValueList as_

end

/-- `AST::identifier` (the accessor); callers guarantee the node is an
identifier (the source panics otherwise). -/
def identName : AST → String
  | identifier _ s => s
  | _ => ""

def isExpr : AST → Bool
  | expr _ _ => true
  | _ => false

def isIdentifier : AST → Bool
  | identifier _ _ => true
  | _ => false

def range : AST → Range
  | expr r _ => r
  | stringLit r _ => r
  | identifier r _ => r
  | number r _ => r

end AST

/-! ## Types, parameters and tables (`src/internal.rs`) -/

def INT_TYPE : String := ":int"
def STRING_TYPE : String := ":string"
def LISTY_TYPE : String := ":listy"
def ANY_TYPE : String := ":any"

/-- `internal::Type`. -/
inductive RaspType where
  | number : RaspType
  | listy : RaspType
  | strT : RaspType
  | any : RaspType
  | typeDef : String → String → RaspType
deriving DecidableEq, Repr

namespace RaspType

/-- `Type::name`. -/
def name : RaspType → String
  | number => INT_TYPE
  | listy => LISTY_TYPE
  | strT => STRING_TYPE
  | typeDef n _ => n
  | any => ANY_TYPE

def isTypedef : RaspType → Bool
  | typeDef _ _ => true
  | _ => false

end RaspType

/-- The `TypeTable` is its vector of types. -/
abbrev TypeTable := List RaspType

/-- `TypeTable::get_type` with explicit fuel bounding the alias hops.  The
source recurses through `TypeDef` targets; tables built by `add_typedef`
only ever store canonical (non-typedef) target names, so one hop suffices
and `length + 1` fuel is never exhausted on reachable tables. -/
def getTypeFuel : Nat → TypeTable → String → Option RaspType
  | 0, _, _ => Option.none
  | fuel + 1, types, typeName =>
    match types.find? (fun t => t.name == typeName) with
    | some (RaspType.typeDef _ pointsTo) => getTypeFuel fuel types pointsTo
    | some t => some t
    | Option.none => Option.none

/-- `TypeTable::get_type`. -/
def getType (types : TypeTable) (typeName : String) : Option RaspType :=
  getTypeFuel (types.length + 1) types typeName

/-- `TypeTable::has_type`. -/
def hasType (types : TypeTable) (typeName : String) : Bool :=
  (getType types typeName).isSome

/-- `TypeTable::add_typedef`: push a `TypeDef` whose target is the canonical
name of the resolved target type.  Callers check `has_type target` first
(the source `expect`s it); the impossible branch leaves the table unchanged. -/
def addTypedef (types : TypeTable) (typeName target : String) : TypeTable :=
  match getType types target with
  | some t => types ++ [RaspType.typeDef typeName t.name]
  | Option.none => types

/-- `internal::Param`. -/
structure Param where
  name : String
  paramType : RaspType
  optional : Bool
  varargs : Bool
deriving Repr

/-- `Param::any`. -/
def Param.anyP (name : String) (optional : Bool) : Param :=
  ⟨name, RaspType.any, optional, false⟩

/-- `internal::Function` (the `&extern` support is commented out in the
source, so there is no external flag). -/
structure Function where
  name : String
  params : List Param
  docstring : String
  body : List AST
  sourceFile : String
deriving Repr

/-- `FunTable::has_fun`: linear search. -/
def hasFun (funs : List Function) (name : String) : Bool :=
  funs.any (fun f => name == f.name)

/-- `FunTable::get_fun`: `None` unless `has_fun`; otherwise the FIRST
descriptor in the table whose name matches. -/
def getFun (funs : List Function) (name : String) : Option Function :=
  if !hasFun funs name then Option.none
  else funs.find? (fun f => name == f.name)

/-! ## The `&type` gatherer (`src/gatherer.rs`) -/

def Pos.toStr (p : Pos) : String :=
  toString (p.lineIndex + 1) ++ ":" ++ toString (p.colIndex + 1)

def Range.toStr (r : Range) : String :=
  if r.start = r.stop then r.stop.toStr else r.start.toStr ++ "-" ++ r.stop.toStr

/-- Errors are `error_chain` cause chains: outermost context first. -/
abbrev GErr := List String

def TYPE_KEYWORD : String := "&type"

/-- `TypeGatherer::visit_expr`: `(&type OLD NEW)` with two distinct
identifiers; yields `(old, new, range)`. -/
def typeVisitExpr (exprs : List AST) : Except GErr (String × String × Range) :=
  match exprs with
  | [kw, e1, e2] =>
    let start := kw.range.start
    if !e1.isIdentifier then
      .error ["param 1: expected identifier, but instead got " ++ toString (repr e1)]
    else if !e2.isIdentifier then
      .error ["param 2: expected identifier, but instead got " ++ toString (repr e2)]
    else
      let oldtype := e1.identName
      let newtype := e2.identName
      if oldtype = newtype then
        .error ["illegal type definition: cannot define a type to itself (" ++
                oldtype ++ " to " ++ newtype ++ ")"]
      else .ok (oldtype, newtype, ⟨start, e2.range.stop⟩)
  | _ =>
    .error [TYPE_KEYWORD ++ " must be at exactly 3 items long: I found " ++
            toString exprs.length ++ " items (" ++ TYPE_KEYWORD ++ " TYPE NEWTYPE)"]

/-- `Gatherer::visit_exprs` for the type gatherer: only fires on expressions
headed by the `&type` keyword. -/
def typeVisitExprs (exprs : List AST) : Except GErr (Option (String × String × Range)) :=
  match exprs with
  | [] => .ok Option.none
  | first :: _ =>
    match first with
    | AST.identifier _ ident =>
      if ident = TYPE_KEYWORD then
        match typeVisitExpr exprs with
        | .error e => .error (TYPE_KEYWORD :: e)
        | .ok v => .ok (some v)
      else .ok Option.none
    | _ => .ok Option.none

/-- `Gatherer::gather` for the type gatherer: scan top-level `Expr` nodes. -/
def typeGather (ast : List AST) : Except GErr (List (String × String × Range)) :=
  match ast with
  | [] => .ok []
  | item :: rest =>
    match item with
    | AST.expr r exprs =>
      match typeVisitExprs exprs with
      | .error e =>
        .error (("builtin expression at " ++ r.toStr) :: e)
      | .ok Option.none => typeGather rest
      | .ok (some v) =>
        match typeGather rest with
        | .error e => .error e
        | .ok vs => .ok (v :: vs)
    | _ => typeGather rest

/-- One pass of `gather_and_link`'s fixed-point loop: for each pending triple,
re-check conflicts and add the resolvable ones to the table. -/
def addPass (table : TypeTable) : List (String × String × Range) → Except GErr TypeTable
  | [] => .ok table
  | (old, new, range) :: rest =>
    if hasType table new then
      match getType table new with
      | some pointing =>
        if old ≠ pointing.name then
          .error ["invalid type mapping from " ++ new ++ " to " ++ old ++ " at " ++
                  range.toStr ++ ": was already set to " ++ pointing.name]
        else addPass table rest
      | Option.none => addPass table rest
    else if hasType table old then addPass (addTypedef table new old) rest
    else addPass table rest

/-- The no-progress error text of `gather_and_link`. -/
def stallMsg (protos : List (String × String × Range)) : String :=
  protos.foldl
    (fun acc t =>
      acc ++ "    " ++ t.1 ++ " -> " ++ t.2.1 ++ " (defined at " ++ t.2.2.toStr ++ ")\n")
    "Went one cycle without deducing a type; I am assuming there is a cycle or an invalid type specified. Here are the types I could not deduce:\n"

/-- The `loop` of `gather_and_link`: note that the source sets `last_size`
to the length of the pending list measured AFTER the filter of the same
iteration, so the no-progress check at the top of the next iteration always
compares two equal numbers. -/
def linkLoop (protos : List (String × String × Range)) (lastSize : Nat)
    (table : TypeTable) : Except GErr TypeTable :=
  if protos.isEmpty then .ok table
  else if lastSize = protos.length then .error [stallMsg protos]
  else
    match addPass table protos with
    | .error e => .error e
    | .ok table' =>
      let protos' := protos.filter (fun t => !hasType table' t.2.1)
      linkLoop protos' protos'.length table'
termination_by 2 * protos.length + (if lastSize = protos.length then 0 else 1)
decreasing_by
  have hle : (protos.filter (fun t => !hasType table' t.2.1)).length ≤ protos.length :=
    List.length_filter_le _ _
  split
  · omega
  · simp_all

/-- `TypeGatherer::gather_and_link`: gather the `(old, new, range)` triples,
seed the table with the primitives, do one resolution pass inline, then loop. -/
def gatherAndLink (exprs : List AST) : Except GErr TypeTable :=
  let typeTable : TypeTable := [RaspType.number, RaspType.strT, RaspType.listy]
  match typeGather exprs with
  | .error e => .error e
  | .ok typeMappings =>
    match prePass typeTable typeMappings with
    | .error e => .error e
    | .ok (table, protoTypes) => linkLoop protoTypes 0 table
where
  /-- The first `for (old, new, range) in type_mappings` pass. -/
  prePass (table : TypeTable) :
      List (String × String × Range) → Except GErr (TypeTable × List (String × String × Range))
  | [] => .ok (table, [])
  | (old, new, range) :: rest =>
    if hasType table new then
      match getType table new with
      | some pointing =>
        if old ≠ pointing.name then
          .error ["invalid type mapping from " ++ new ++ " to " ++ old ++
                  ": was already set to " ++ pointing.name ++ " at " ++ range.toStr]
        else prePass table rest
      | Option.none => prePass table rest
    else if hasType table old then prePass (addTypedef table new old) rest
    else
      match prePass table rest with
      | .error e => .error e
      | .ok (t, protos) => .ok (t, (old, new, range) :: protos)

/-! ## Claim C1: the type-alias fixed point -/

def dummyRange : Range := ⟨Pos.start, Pos.start⟩

/-- An `(&type OLD NEW)` directive node. -/
def typeDirective (old new : String) : AST :=
  AST.expr dummyRange
    [AST.identifier dummyRange TYPE_KEYWORD,
     AST.identifier dummyRange old, AST.identifier dummyRange new]

def isOkE {α : Type} : Except GErr α → Bool
  | .ok _ => true
  | .error _ => false

/-- C1 (code evaluated at the failing input): the acyclic alias triples
`(C→D), (B→C), (:int→B)` — the chain `D → C → B → :int` ends in a
primitive — make `gather_and_link` report the no-progress error when they
appear in this order, while the very same triples in the opposite order
resolve; `last_size` is assigned the pending-list length measured after the
filter of the same iteration, so the progress check of the following
iteration always compares two equal numbers, and any input needing a third
pass is declared stuck. -/
theorem gather_and_link_stalls_on_acyclic_chain :
    isOkE (gatherAndLink
      [typeDirective "C" "D", typeDirective "B" "C", typeDirective ":int" "B"]) = false
    ∧ gatherAndLink
        [typeDirective ":int" "B", typeDirective "B" "C", typeDirective "C" "D"]
      = .ok [RaspType.number, RaspType.strT, RaspType.listy,
             RaspType.typeDef "B" ":int", RaspType.typeDef "C" ":int",
             RaspType.typeDef "D" ":int"] := by
  constructor <;>
    simp +decide [gatherAndLink, gatherAndLink.prePass, typeGather, typeVisitExprs,
      typeVisitExpr, linkLoop, addPass, hasType, getType, getTypeFuel, addTypedef,
      RaspType.name, AST.isIdentifier, AST.identName, AST.range, TYPE_KEYWORD,
      INT_TYPE, STRING_TYPE, LISTY_TYPE, ANY_TYPE, stallMsg, isOkE, typeDirective,
      dummyRange, Pos.start, Range.toStr, Pos.toStr, List.find?]

/-! ## Claim C2: function-table lookup -/

/-- C2 (counterexample): with two descriptors registered under the same name,
`get_fun` returns the FIRST one, not the last: the two descriptors here
differ in their docstring, and lookup yields the first. -/
theorem get_fun_returns_first_registered :
    (getFun [⟨"f", [], "first", [], "a.rasp"⟩, ⟨"f", [], "second", [], "a.rasp"⟩] "f").map
        (fun f => f.docstring) = some "first"
    ∧ "first" ≠ "second" := by
  constructor
  · rfl
  · decide

/-- C2 (amended): duplicate registration is first-wins: `get_fun` scans the
table in registration order and returns the earliest descriptor with the
requested name, no matter what follows it. -/
theorem get_fun_first_wins (pre post : List Function) (f : Function) (name : String)
    (hpre : ∀ g ∈ pre, g.name ≠ name) (hf : f.name = name) :
    getFun (pre ++ f :: post) name = some f := by
  have hfind : (pre ++ f :: post).find? (fun g => name == g.name) = some f := by
    induction pre with
    | nil => simp [List.find?, hf]
    | cons g gs ih =>
      have hg : g.name ≠ name := hpre g (List.mem_cons_self g gs)
      have : (name == g.name) = false := beq_eq_false_iff_ne.mpr (Ne.symm hg)
      simp only [List.cons_append, List.find?, this]
      exact ih (fun g' hg' => hpre g' (List.mem_cons_of_mem g hg'))
  have hhas : hasFun (pre ++ f :: post) name = true := by
    unfold hasFun
    rw [List.any_eq_true]
    exact ⟨f, by simp, by simp [hf]⟩
  unfold getFun
  rw [hhas]
  simpa using hfind

/-- C2 (witness). -/
theorem get_fun_first_wins_witness :
    getFun [⟨"g", [], "", [], "s"⟩, ⟨"f", [], "first", [], "s"⟩,
            ⟨"f", [], "second", [], "s"⟩] "f" = some ⟨"f", [], "first", [], "s"⟩ :=
  get_fun_first_wins [⟨"g", [], "", [], "s"⟩] [⟨"f", [], "second", [], "s"⟩]
    ⟨"f", [], "first", [], "s"⟩ "f"
    (by
      intro g hg
      rw [List.mem_singleton] at hg
      subst hg
      decide)
    rfl

/-! ## Bytecode and the compiler (`src/bytecode.rs`) -/

/-- `bytecode::Bytecode`. -/
inductive Bytecode where
  | call : String → Nat → Bytecode
  | push : Value → Bytecode
  | pop : String → Bytecode
  | load : String → Bytecode
  | store : String → Value → Bytecode
  | newVarStack : Bytecode
  | popVarStack : Bytecode
  | skip : Nat → Bytecode
  | skipFalse : Nat → Bytecode
deriving Repr

/-- Compiler failure: an `error_chain` cause chain (outermost context first)
or a Rust panic (index out of bounds, `unwrap` on `None`, ...). -/
inductive CErr where
  | failure : List String → CErr
  | cpanic : String → CErr
deriving Repr

/-- `chain_err`: wrap a propagated error with one more context line;
panics are not wrapped. -/
def CErr.chainErr (ctx : String) : CErr → CErr
  | failure msgs => failure (ctx :: msgs)
  | cpanic s => cpanic s

/-- `ToBytecode::min_function_args`: count parameters up to the first
optional one. -/
def minFunctionArgs (fn : Function) : Nat :=
  (fn.params.takeWhile (fun p => !p.optional)).length

/-- `ToBytecode::max_function_args`: both branches of the source's `if`
add one, so this is the total parameter count. -/
def maxFunctionArgs (fn : Function) : Nat :=
  fn.params.foldl (fun count _ => count + 1) 0

theorem szOf_append (xs ys : List AST) : sizeOf (xs ++ ys) + 1 = sizeOf xs + sizeOf ys := by
  induction xs with
  | nil => simp only [List.nil_append, List.nil.sizeOf_spec]; omega
  | cons x xs ih => simp only [List.cons_append, List.cons.sizeOf_spec]; omega

theorem szOf_reverse (l : List AST) : sizeOf l.reverse = sizeOf l := by
  induction l with
  | nil => rfl
  | cons x xs ih =>
    have h := szOf_append xs.reverse [x]
    have hx : sizeOf [x] = 1 + sizeOf x + 1 := by
      simp only [List.cons.sizeOf_spec, List.nil.sizeOf_spec]
    simp only [List.reverse_cons, List.cons.sizeOf_spec]
    omega

mutual

/-- `ToBytecode::to_bytecode`: lower a top-level sequence of nodes. -/
def toBytecode (ft : List Function) (ast : List AST) : Except CErr (List Bytecode) :=
  match ast with
  | [] => .ok []
  | item :: rest =>
    match item with
    | AST.expr r children =>
      match exprToBytecode ft r children with
      | .ok codez => (toBytecode ft rest).map (fun more => codez ++ more)
      | .error e => .error (e.chainErr r.toStr)
    | AST.stringLit _ s => (toBytecode ft rest).map (fun more => Bytecode.push (.str s) :: more)
    | AST.identifier _ s => (toBytecode ft rest).map (fun more => Bytecode.load s :: more)
    | AST.number _ n => (toBytecode ft rest).map (fun more => Bytecode.push (.num n) :: more)
termination_by (sizeOf ast, 1)

/-- `ToBytecode::expr_to_bytecode` on an `Expr` node with the given range and
children.  (The string-literal and identifier head cases share one body in
the source; here that body is the separate `callToBytecode`.) -/
def exprToBytecode (ft : List Function) (r : Range) (exprs : List AST) :
    Except CErr (List Bytecode) :=
  match exprs with
  | [] => .ok [Bytecode.push (.vlist [])]
  | first :: args =>
    match first with
    | AST.expr _ _ =>
      .error (.failure ["attempt to call expression as a function (not yet supported)"])
    | AST.number _ _ =>
      .error (.failure ["attempt to call number literal as a function"])
    | AST.stringLit fr name => callToBytecode ft (AST.stringLit fr name) args fr name
    | AST.identifier fr name => callToBytecode ft (AST.identifier fr name) args fr name
termination_by (sizeOf exprs, 2)

/-- The head-call case of `expr_to_bytecode`: `first` is the head node
(string literal or identifier), `fr`/`name` its range and text, `args` the
remaining children. -/
def callToBytecode (ft : List Function) (first : AST) (args : List AST)
    (fr : Range) (name : String) : Except CErr (List Bytecode) :=
  if name = "let" then
    match letBuiltin ft (first :: args) with
    | .ok inner => .ok inner
    | .error e => .error (e.chainErr fr.toStr)
  else if name = "list" then
    match listBuiltin ft (first :: args) with
    | .ok inner => .ok inner
    | .error e => .error (e.chainErr fr.toStr)
  else if name = "if" then
    match ifBuiltin ft (first :: args) with
    | .ok inner => .ok inner
    | .error e => .error (e.chainErr fr.toStr)
  else if !hasFun ft name && !isBuiltin name then
    .error (.failure ["attempt to call non-existent function `" ++ name ++ "'"])
  else if isBuiltin name then
    match argsToBytecode ft fr args with
    | .ok argCode => .ok (argCode ++ [Bytecode.call name args.length])
    | .error e => .error e
  else
    match getFun ft name with
    | Option.none => .error (.cpanic "called unwrap on None")
    | some fn =>
      let minArgs := minFunctionArgs fn
      let maxArgs := maxFunctionArgs fn
      if args.length > maxArgs || args.length < minArgs then
        if maxArgs = minArgs then
          .error (.failure ["no variant of function " ++ fn.name ++ " takes " ++
            toString args.length ++ " arguments (takes exactly " ++
            toString minArgs ++ " arguments)"])
        else
          .error (.failure ["no variant of function " ++ fn.name ++ " takes " ++
            toString args.length ++ " arguments (takes " ++ toString minArgs ++
            " to " ++ toString maxArgs ++ " arguments)"])
      else
        match userArgsToBytecode ft fr fn.params args with
        | .ok argCode => .ok (argCode ++ [Bytecode.call name args.length])
        | .error e => .error e
termination_by (sizeOf (first :: args), 1)

/-- The intrinsic-call argument loop of `expr_to_bytecode`. -/
def argsToBytecode (ft : List Function) (fr : Range) (args : List AST) :
    Except CErr (List Bytecode) :=
  match args with
  | [] => .ok []
  | arg :: more =>
    match arg with
    | AST.expr ar children =>
      match exprToBytecode ft ar children with
      | .ok inner => (argsToBytecode ft fr more).map (fun tail => inner ++ tail)
      | .error e => .error (e.chainErr fr.toStr)
    | AST.identifier _ s =>
      (argsToBytecode ft fr more).map (fun tail => Bytecode.load s :: tail)
    | other =>
      (argsToBytecode ft fr more).map (fun tail => Bytecode.push other.toValue :: tail)
termination_by (sizeOf args, 1)

/-- The user-call argument loop: identical lowering, but the source indexes
`fun.params[arg_index]` (a dead binding) which panics when out of range. -/
def userArgsToBytecode (ft : List Function) (fr : Range) (params : List Param)
    (args : List AST) : Except CErr (List Bytecode) :=
  match args with
  | [] => .ok []
  | arg :: more =>
    match params with
    | [] => .error (.cpanic "index out of bounds")
    | _ :: prest =>
      match arg with
      | AST.expr ar children =>
        match exprToBytecode ft ar children with
        | .ok inner => (userArgsToBytecode ft fr prest more).map (fun tail => inner ++ tail)
        | .error e => .error (e.chainErr fr.toStr)
      | AST.identifier _ s =>
        (userArgsToBytecode ft fr prest more).map (fun tail => Bytecode.load s :: tail)
      | other =>
        (userArgsToBytecode ft fr prest more).map (fun tail => Bytecode.push other.toValue :: tail)
termination_by (sizeOf args, 1)

/-- `ToBytecode::let_builtin` on the node's children (the source indexes
`exprs[0]` and `exprs[1]`, panicking when absent). -/
def letBuiltin (ft : List Function) (exprs : List AST) : Except CErr (List Bytecode) :=
  match exprs with
  | first :: setz :: theRest =>
    if !first.isIdentifier then
      .error (.failure ["let function must be called as an identifier"])
    else if !setz.isExpr then
      .error (.failure ["second argument of let function must be a list"])
    else
      match setz with
      | AST.expr _ sets =>
        match bindingsToBytecode ft sets with
        | .error e => .error e
        | .ok bindCode =>
          match toBytecode ft theRest with
          | .ok innerCode =>
            .ok (Bytecode.newVarStack :: (bindCode ++ innerCode) ++ [Bytecode.popVarStack])
          | .error e => .error e
      | _ => .error (.cpanic "unreachable")
  | _ => .error (.cpanic "index out of bounds")
termination_by (sizeOf exprs, 0)

/-- The per-binding loop of `let_builtin`. -/
def bindingsToBytecode (ft : List Function) (sets : List AST) : Except CErr (List Bytecode) :=
  match sets with
  | [] => .ok []
  | set :: more =>
    match set with
    | AST.expr _ [n, v] =>
      if !n.isIdentifier then
        .error (.failure ["assignments name must be an identifier, instead got " ++
          toString (repr n)])
      else
        match v with
        | AST.expr vr vchildren =>
          match exprToBytecode ft vr vchildren with
          | .ok vcode =>
            (bindingsToBytecode ft more).map
              (fun tail => vcode ++ [Bytecode.pop n.identName] ++ tail)
          | .error e => .error (e.chainErr "invalid function call")
        | _ =>
          (bindingsToBytecode ft more).map
            (fun tail => Bytecode.store n.identName v.toValue :: tail)
    | _ => .error (.failure ["assignments must be a list of two items"])
termination_by (sizeOf sets, 1)

/-- `ToBytecode::list_builtin` on the node's children. -/
def listBuiltin (ft : List Function) (exprs : List AST) : Except CErr (List Bytecode) :=
  match exprs with
  | first :: theRest =>
    if !first.isIdentifier then
      .error (.failure ["list function must be called as an identifier"])
    else
      match toBytecode ft theRest.reverse with
      | .error e => .error (e.chainErr "list function call")
      | .ok inner =>
        let codez := Bytecode.push .endArgs :: inner
        let size : Int := (codez.length : Int) - 1
        .ok (codez ++ [Bytecode.push (.startArgs size), Bytecode.call "list" 0])
  | [] => .error (.cpanic "index out of bounds")
termination_by (sizeOf exprs, 0)
decreasing_by
  simp_wf
  apply Prod.Lex.left
  rw [szOf_reverse]
  omega

/-- `ToBytecode::if_builtin` on the node's children. -/
def ifBuiltin (ft : List Function) (exprs : List AST) : Except CErr (List Bytecode) :=
  match exprs with
  | first :: theRest =>
    if !first.isIdentifier then
      .error (.failure ["if function must be called as an identifier"])
    else
      match theRest with
      | [c1, c2, c3] =>
        match toBytecode ft [c1] with
        | .error e => .error (e.chainErr "condition of if function call")
        | .ok firstCodez =>
          match toBytecode ft [c2] with
          | .error e => .error (e.chainErr "first expression of if function call")
          | .ok secondCodez =>
            match toBytecode ft [c3] with
            | .error e => .error (e.chainErr "first expression of if function call")
            | .ok thirdCodez =>
              .ok (firstCodez ++ [Bytecode.skipFalse (secondCodez.length + 1)] ++
                   secondCodez ++ [Bytecode.skip (thirdCodez.length + 1)] ++ thirdCodez)
      | _ =>
        .error (.failure ["if function requires exactly 3 arguments, got " ++
          toString theRest.length ++ " instead"])
  | [] => .error (.cpanic "index out of bounds")
termination_by (sizeOf exprs, 0)

end

/-- `VM::compile_function`: one `Pop(param.name)` per parameter in
declaration order, then the compiled body. -/
def compileFunction (ft : List Function) (fn : Function) : Except CErr (List Bytecode) :=
  let prelude := fn.params.map (fun p => Bytecode.pop p.name)
  match toBytecode ft fn.body with
  | .ok bytecode => .ok (prelude ++ bytecode)
  | .error e => .error (e.chainErr ("failure to compile function `" ++ fn.name ++ "'"))

/-! ## The virtual machine (`src/vm.rs`) -/

/-- A variable scope frame (`VarTable`): a `HashMap` modelled as an
association list, most recent insertion first. -/
abbrev VarTable := List (String × Value)

/-- The VM state: scope stack and value stack hold their tops first. -/
structure VMState where
  varStack : List VarTable
  valueStack : List Value
  funTable : List Function
  typeTable : TypeTable
  funBytecode : List (String × List Bytecode)
  funStack : List String
  host : Host

/-- Lookup in one frame (`HashMap::get`). -/
def frameGet (frame : VarTable) (name : String) : Option Value :=
  (frame.find? (fun p => p.1 == name)).map (fun p => p.2)

/-- `VM::get_var`: walk the scope stack from the innermost frame. -/
def getVarFrames : List VarTable → String → Option Value
  | [], _ => Option.none
  | f :: rest, name =>
    match frameGet f name with
    | some v => some v
    | Option.none => getVarFrames rest name

def VMState.getVar (vm : VMState) (name : String) : Option Value :=
  getVarFrames vm.varStack name

/-- The outcome of a `run` call.  `err` is a propagated `Result::Err` chain,
`vpanic` a Rust panic, `oot` means the recursion exceeded the fuel (the
source recursion is unbounded; every terminating run has some sufficient
fuel). -/
inductive RunOut where
  | ok : VMState → RunOut
  | err : List String → RunOut
  | vpanic : String → RunOut
  | oot : RunOut

/-- `RunRes`: outcome, indices of the instructions this invocation
dispatched (skipped slots excluded), and the number of loop iterations this
invocation performed. -/
abbrev RunRes := RunOut × List Nat × Nat

mutual

/-- `VM::run`: push a fresh scope frame, execute the instruction loop, pop
the frame (`unwrap` panics if the code already popped every frame). -/
def runVM (fuel : Nat) (vm : VMState) (code : List Bytecode) : RunRes :=
  let vm1 : VMState := { vm with varStack := [] :: vm.varStack }
  match runLoop fuel vm1 code 0 0 with
  | (.ok vm2, tr, it) =>
    match vm2.varStack with
    | _ :: restFrames => (.ok { vm2 with varStack := restFrames }, tr, it)
    | [] => (.vpanic "called unwrap on None", tr, it)
  | other => other
termination_by (fuel, code.length, 1)

/-- The `for b in bytecode` loop of `VM::run`, with the skip counter.
`idx` numbers the instructions of this invocation. -/
def runLoop (fuel : Nat) (vm : VMState) (code : List Bytecode) (skip : Nat)
    (idx : Nat) : RunRes :=
  match code with
  | [] => (.ok vm, [], 0)
  | b :: rest =>
    if skip > 0 then
      let r := runLoop fuel vm rest (skip - 1) (idx + 1)
      (r.1, r.2.1, r.2.2 + 1)
    else
      match b with
      | .call fname _ =>
        if hasFun vm.funTable fname ||
            ((vm.funBytecode.find? (fun p => p.1 == fname)).isSome) then
          match (vm.funBytecode.find? (fun p => p.1 == fname)).map (fun p => p.2) with
          | some bc =>
            if fuel = 0 then (.oot, [idx], 1)
            else
              match runVM (fuel - 1) { vm with funStack := fname :: vm.funStack } bc with
              | (.ok vm2, _, _) =>
                let r := runLoop fuel { vm2 with funStack := vm2.funStack.tail } rest 0 (idx + 1)
                (r.1, idx :: r.2.1, r.2.2 + 1)
              | (other, _, _) => (other, [idx], 1)
          | Option.none =>
            match getFun vm.funTable fname with
            | Option.none => (.vpanic "called unwrap on None", [idx], 1)
            | some fn =>
              match compileFunction vm.funTable fn with
              | .error (.failure msgs) =>
                (.err ("failure to compile function" :: msgs), [idx], 1)
              | .error (.cpanic s) => (.vpanic s, [idx], 1)
              | .ok bc =>
                let vmC : VMState := { vm with funBytecode := (fname, bc) :: vm.funBytecode }
                if fuel = 0 then (.oot, [idx], 1)
                else
                  match runVM (fuel - 1) { vmC with funStack := fname :: vmC.funStack } bc with
                  | (.ok vm2, _, _) =>
                    let r := runLoop fuel { vm2 with funStack := vm2.funStack.tail } rest 0 (idx + 1)
                    (r.1, idx :: r.2.1, r.2.2 + 1)
                  | (other, _, _) => (other, [idx], 1)
        else if isBuiltin fname then
          match applyBuiltin vm.host fname vm.valueStack with
          | .bok newStack =>
            let r := runLoop fuel { vm with valueStack := newStack } rest 0 (idx + 1)
            (r.1, idx :: r.2.1, r.2.2 + 1)
          | .berr m => (.err [m], [idx], 1)
          | .bpanic m => (.vpanic m, [idx], 1)
        else (.err ["unknown function " ++ fname], [idx], 1)
      | .push v =>
        match v with
        | .ident name =>
          match vm.getVar name with
          | some value =>
            let r := runLoop fuel { vm with valueStack := value :: vm.valueStack } rest 0 (idx + 1)
            (r.1, idx :: r.2.1, r.2.2 + 1)
          | Option.none => (.err ["unknown identifier " ++ name], [idx], 1)
        | _ =>
          let r := runLoop fuel { vm with valueStack := v :: vm.valueStack } rest 0 (idx + 1)
          (r.1, idx :: r.2.1, r.2.2 + 1)
      | .pop name =>
        match vm.valueStack with
        | [] => (.vpanic "attempted to pop a value off of an empty stack", [idx], 1)
        | v :: vrest =>
          match vm.varStack with
          | [] => (.vpanic "called unwrap on None", [idx], 1)
          | f :: frest =>
            let r := runLoop fuel
              { vm with valueStack := vrest, varStack := ((name, v) :: f) :: frest }
              rest 0 (idx + 1)
            (r.1, idx :: r.2.1, r.2.2 + 1)
      | .load name =>
        match vm.getVar name with
        | some value =>
          let r := runLoop fuel { vm with valueStack := value :: vm.valueStack } rest 0 (idx + 1)
          (r.1, idx :: r.2.1, r.2.2 + 1)
        | Option.none => (.err ["unknown variable or function name: " ++ name], [idx], 1)
      | .store name v =>
        match vm.varStack with
        | [] => (.vpanic "called unwrap on None", [idx], 1)
        | f :: frest =>
          let r := runLoop fuel { vm with varStack := ((name, v) :: f) :: frest } rest 0 (idx + 1)
          (r.1, idx :: r.2.1, r.2.2 + 1)
      | .newVarStack =>
        let r := runLoop fuel { vm with varStack := [] :: vm.varStack } rest 0 (idx + 1)
        (r.1, idx :: r.2.1, r.2.2 + 1)
      | .popVarStack =>
        match vm.varStack with
        | [] =>
          (.vpanic "tried to pop variable table stack but there was nothing on the stack",
           [idx], 1)
        | _ :: frest =>
          let r := runLoop fuel { vm with varStack := frest } rest 0 (idx + 1)
          (r.1, idx :: r.2.1, r.2.2 + 1)
      | .skip n =>
        let r := runLoop fuel vm rest n (idx + 1)
        (r.1, idx :: r.2.1, r.2.2 + 1)
      | .skipFalse n =>
        match vm.valueStack with
        | [] => (.vpanic popPanicMsg, [idx], 1)
        | v :: vrest =>
          let vmP : VMState := { vm with valueStack := vrest }
          match v with
          | .num numv =>
            let r := runLoop fuel vmP rest (if F64.beq numv (.fin 0) then n else 0) (idx + 1)
            (r.1, idx :: r.2.1, r.2.2 + 1)
          | .str s =>
            let r := runLoop fuel vmP rest (if s.length = 0 then n else 0) (idx + 1)
            (r.1, idx :: r.2.1, r.2.2 + 1)
          | .vlist l =>
            let r := runLoop fuel vmP rest (if l.length = 0 then n else 0) (idx + 1)
            (r.1, idx :: r.2.1, r.2.2 + 1)
          | .boolean t =>
            let r := runLoop fuel vmP rest (if !t then n else 0) (idx + 1)
            (r.1, idx :: r.2.1, r.2.2 + 1)
          | e =>
            (.err ["VM error: invalid boolean value reached (got " ++ e.typeStr ++ ")"],
             [idx], 1)
termination_by (fuel, code.length, 0)

end

/-! ### Execution lemmas -/

/-- Account for `k` loop iterations that dispatched nothing (skipped slots). -/
def skipRes (k : Nat) (r : RunRes) : RunRes := (r.1, r.2.1, r.2.2 + k)

/-- Account for iterations that dispatched the instructions at indices `is`. -/
def seqRes (is : List Nat) (r : RunRes) : RunRes := (r.1, is ++ r.2.1, r.2.2 + is.length)

/-- A pending skip counter of at least `|cs|` advances over all of `cs`
without dispatching anything. -/
theorem runLoop_skip_ge (fuel : Nat) (vm : VMState) (cs rest : List Bytecode)
    (skip idx : Nat) (h : cs.length ≤ skip) :
    runLoop fuel vm (cs ++ rest) skip idx
      = skipRes cs.length (runLoop fuel vm rest (skip - cs.length) (idx + cs.length)) := by
  induction cs generalizing skip idx with
  | nil => simp [skipRes]
  | cons c cs ih =>
    have hpos : skip > 0 := by simp at h; omega
    rw [List.cons_append, runLoop.eq_def]
    simp only [if_pos hpos]
    have h1 : skip - 1 - cs.length = skip - (c :: cs).length := by simp; omega
    have h2 : idx + 1 + cs.length = idx + (c :: cs).length := by simp; omega
    rw [ih _ _ (by simp at h ⊢; omega), h1, h2]
    simp [skipRes, Nat.add_assoc]

/-- A run of `Push` instructions of non-identifier values dispatches every
one of them, pushing the values (reversed) onto the value stack. -/
theorem runLoop_pushes (fuel : Nat) (vm : VMState) (vs : List Value)
    (rest : List Bytecode) (idx : Nat) (h : ∀ v ∈ vs, v.isIdent = false) :
    runLoop fuel vm (vs.map Bytecode.push ++ rest) 0 idx
      = seqRes (List.range' idx vs.length)
          (runLoop fuel { vm with valueStack := vs.reverse ++ vm.valueStack }
            rest 0 (idx + vs.length)) := by
  induction vs generalizing vm idx with
  | nil => simp [seqRes]
  | cons v vs ih =>
    have hv : v.isIdent = false := h v (by simp)
    rw [List.map_cons, List.cons_append, runLoop.eq_def]
    cases v with
    | ident s => simp [Value.isIdent] at hv
    | str s =>
      simp only [gt_iff_lt, Nat.lt_irrefl, if_false]
      rw [ih _ _ (fun x hx => h x (by simp [hx]))]
      simp [seqRes, List.range'_succ, Nat.add_assoc, Nat.add_comm 1 vs.length]
    | num n =>
      simp only [gt_iff_lt, Nat.lt_irrefl, if_false]
      rw [ih _ _ (fun x hx => h x (by simp [hx]))]
      simp [seqRes, List.range'_succ, Nat.add_assoc, Nat.add_comm 1 vs.length]
    | vlist l =>
      simp only [gt_iff_lt, Nat.lt_irrefl, if_false]
      rw [ih _ _ (fun x hx => h x (by simp [hx]))]
      simp [seqRes, List.range'_succ, Nat.add_assoc, Nat.add_comm 1 vs.length]
    | boolean b =>
      simp only [gt_iff_lt, Nat.lt_irrefl, if_false]
      rw [ih _ _ (fun x hx => h x (by simp [hx]))]
      simp [seqRes, List.range'_succ, Nat.add_assoc, Nat.add_comm 1 vs.length]
    | startArgs n =>
      simp only [gt_iff_lt, Nat.lt_irrefl, if_false]
      rw [ih _ _ (fun x hx => h x (by simp [hx]))]
      simp [seqRes, List.range'_succ, Nat.add_assoc, Nat.add_comm 1 vs.length]
    | endArgs =>
      simp only [gt_iff_lt, Nat.lt_irrefl, if_false]
      rw [ih _ _ (fun x hx => h x (by simp [hx]))]
      simp [seqRes, List.range'_succ, Nat.add_assoc, Nat.add_comm 1 vs.length]

/-- A run of `Pop` instructions binds the popped values into the innermost
scope frame, first `Pop` taking the top of the stack. -/
theorem runLoop_pops (fuel : Nat) (ps : List String) (rargs : List Value)
    (vm : VMState) (frame : VarTable) (frest : List VarTable)
    (stack : List Value) (idx : Nat) (hlen : ps.length = rargs.length)
    (hvar : vm.varStack = frame :: frest) (hstack : vm.valueStack = rargs ++ stack) :
    runLoop fuel vm (ps.map Bytecode.pop) 0 idx
      = (.ok { vm with
                varStack := ((ps.zip rargs).reverse ++ frame) :: frest,
                valueStack := stack },
         List.range' idx ps.length, ps.length) := by
  induction ps generalizing rargs vm frame idx with
  | nil =>
    cases rargs with
    | nil =>
      simp only [List.map_nil, runLoop]
      simp only [List.nil_append] at hstack
      simp [List.range', ← hvar, ← hstack]
    | cons a l => simp at hlen
  | cons p ps ih =>
    cases rargs with
    | nil => simp at hlen
    | cons v rargs =>
      rw [List.map_cons, runLoop.eq_def]
      simp only [gt_iff_lt, Nat.lt_irrefl, if_false]
      rw [hstack, hvar]
      simp only [List.cons_append]
      rw [ih rargs _ ((p, v) :: frame) (idx + 1) (by simpa using hlen) rfl rfl]
      simp [List.range'_succ, List.append_assoc]

/-- Looking up the `i`-th name in the frame produced by the `Pop` prelude
finds the `i`-th popped value, provided the names are distinct. -/
theorem frameGet_zip_reverse (ps : List String) (rargs : List Value)
    (frame : VarTable) (hlen : ps.length = rargs.length) (hnodup : ps.Nodup)
    (i : Nat) (hi : i < ps.length) :
    frameGet ((ps.zip rargs).reverse ++ frame) (ps.get ⟨i, hi⟩)
      = some (rargs.get ⟨i, by omega⟩) := by
  induction ps generalizing rargs frame i with
  | nil => simp at hi
  | cons p ps ih =>
    cases rargs with
    | nil => simp at hlen
    | cons v rargs =>
      have hzip : ((p :: ps).zip (v :: rargs)).reverse ++ frame
          = (ps.zip rargs).reverse ++ ((p, v) :: frame) := by
        simp [List.zip_cons_cons, List.reverse_cons, List.append_assoc]
      rw [hzip]
      cases i with
      | zero =>
        have hnotin : ∀ q ∈ (ps.zip rargs).reverse, (q.1 == p) = false := by
          intro q hq
          rw [List.mem_reverse] at hq
          obtain ⟨qa, qb⟩ := q
          have hmem : qa ∈ ps := (List.of_mem_zip hq).1
          have hne : qa ≠ p := by
            intro he
            rw [List.nodup_cons] at hnodup
            exact hnodup.1 (he ▸ hmem)
          exact beq_eq_false_iff_ne.mpr hne
        simp only [List.get]
        unfold frameGet
        rw [List.find?_append]
        have hfind1 : ((ps.zip rargs).reverse.find? (fun q => q.1 == p)) = Option.none :=
          List.find?_eq_none.mpr (fun q hq => by simp [hnotin q hq])
        rw [hfind1]
        simp [List.find?]
      | succ i =>
        have hlen' : ps.length = rargs.length := by simpa using hlen
        have hnodup' : ps.Nodup := (List.nodup_cons.mp hnodup).2
        have hi' : i < ps.length := by simpa using hi
        simpa using ih rargs ((p, v) :: frame) hlen' hnodup' i hi'

/-! ## Claim C4: the function-call prelude -/

/-- C4: (1) every successfully compiled user function is the per-parameter
`Pop` prelude (declaration order) followed by the compiled body; (2) running
that prelude from a caller-pushed stack (arguments pushed left to right, so
the last argument is on top) binds parameter `p_i` to argument `a_{n+1-i}`
in the innermost scope: the first `Pop` takes the last argument. -/
theorem function_prelude_binds_args_reversed :
    (∀ (ft : List Function) (fn : Function) (code : List Bytecode),
      compileFunction ft fn = .ok code →
      ∃ bodyCode, code = fn.params.map (fun p => Bytecode.pop p.name) ++ bodyCode
        ∧ toBytecode ft fn.body = .ok bodyCode)
    ∧ (∀ (fuel : Nat) (vm : VMState) (ps : List String) (args : List Value)
        (frame : VarTable) (frest : List VarTable) (stack : List Value) (idx : Nat)
        (hnodup : ps.Nodup) (hlen : ps.length = args.length)
        (hvar : vm.varStack = frame :: frest)
        (hstack : vm.valueStack = args.reverse ++ stack),
      ∃ vm', runLoop fuel vm (ps.map Bytecode.pop) 0 idx
          = (.ok vm', List.range' idx ps.length, ps.length)
        ∧ vm'.valueStack = stack
        ∧ ∀ i (hi : i < ps.length),
            vm'.getVar (ps.get ⟨i, hi⟩)
              = some (args.get ⟨args.length - 1 - i, by omega⟩)) := by
  constructor
  · intro ft fn code hc
    unfold compileFunction at hc
    cases hbody : toBytecode ft fn.body with
    | ok bodyCode =>
      rw [hbody] at hc
      simp at hc
      exact ⟨bodyCode, hc.symm, rfl⟩
    | error e => rw [hbody] at hc; simp at hc
  · intro fuel vm ps args frame frest stack idx hnodup hlen hvar hstack
    have hlenr : ps.length = args.reverse.length := by simpa using hlen
    refine ⟨_, runLoop_pops fuel ps args.reverse vm frame frest stack idx hlenr hvar hstack,
      rfl, ?_⟩
    intro i hi
    have hget := frameGet_zip_reverse ps args.reverse frame hlenr hnodup i hi
    have hrev : args.reverse.get ⟨i, by omega⟩ = args.get ⟨args.length - 1 - i, by omega⟩ := by
      rw [List.get_reverse']
    unfold VMState.getVar
    simp only [getVarFrames]
    rw [hget, hrev]

/-- A host whose calls all return 0 (for concrete runs). -/
def emptyHost : Host := ⟨fun _ _ => 0, fun _ => 0, fun _ _ => 0, fun _ _ => (0, [])⟩

/-- `VM::new` on empty tables. -/
def initialVM : VMState := ⟨[], [], [], [], [], [], emptyHost⟩

/-- C4 (witness): `(&define inc (n) 1)` compiles to `Pop n` then the body;
popping the prelude `[Pop p, Pop q]` over caller-pushed `a1 = 1, a2 = 2`
binds `p := 2` (the last argument) and `q := 1`. -/
theorem function_prelude_binds_args_reversed_witness :
    (∃ bodyCode, [Bytecode.pop "n", Bytecode.push (.num (.fin 1))]
        = ([⟨"n", RaspType.any, false, false⟩] : List Param).map
            (fun p => Bytecode.pop p.name) ++ bodyCode
      ∧ toBytecode [] [AST.number dummyRange (F64.fin 1)] = .ok bodyCode)
    ∧ (∃ vm', runLoop 1
          ⟨[[]], [Value.num (F64.fin 2), Value.num (F64.fin 1)], [], [], [], [], emptyHost⟩
          (["p", "q"].map Bytecode.pop) 0 0
        = (.ok vm', List.range' 0 2, 2)
      ∧ vm'.valueStack = []
      ∧ ∀ i (hi : i < (["p", "q"] : List String).length),
          vm'.getVar ((["p", "q"] : List String).get ⟨i, hi⟩)
            = some (([Value.num (F64.fin 1), Value.num (F64.fin 2)] : List Value).get
                ⟨2 - 1 - i, by simp at hi ⊢; omega⟩)) := by
  constructor
  · exact function_prelude_binds_args_reversed.1 []
      ⟨"inc", [⟨"n", RaspType.any, false, false⟩], "",
       [AST.number dummyRange (F64.fin 1)], "t"⟩
      [Bytecode.pop "n", Bytecode.push (.num (.fin 1))]
      (by simp [compileFunction, toBytecode, Except.map])
  · exact function_prelude_binds_args_reversed.2 1
      ⟨[[]], [Value.num (F64.fin 2), Value.num (F64.fin 1)], [], [], [], [], emptyHost⟩
      ["p", "q"] [Value.num (F64.fin 1), Value.num (F64.fin 2)] [] [] [] 0
      (by decide) (by decide) rfl rfl

/-! ## Claim C6: empty-stack pops -/

/-- C6 (counterexample): executing `Pop` with an empty value stack does not
produce a propagated runtime error — the VM aborts with the `expect` panic
"attempted to pop a value off of an empty stack" (a `vpanic` outcome, not an
`err`). -/
theorem empty_pop_is_panic_not_error :
    runVM 1 initialVM [Bytecode.pop "x"]
      = (.vpanic "attempted to pop a value off of an empty stack", [0], 1) := by
  rw [runVM]
  rw [runLoop.eq_def]
  simp [initialVM]

/-- C6 (amended): every attempt to pop from an empty value stack — the `Pop`
instruction, `SkipFalse`, and every intrinsic's `pop_value` — aborts the VM
by a panic; it is neither recovered silently nor propagated as a runtime
error. -/
theorem empty_stack_pops_panic :
    (∀ (fuel : Nat) (vm : VMState) (name : String) (rest : List Bytecode) (idx : Nat),
      vm.valueStack = [] →
      runLoop fuel vm (Bytecode.pop name :: rest) 0 idx
        = (.vpanic "attempted to pop a value off of an empty stack", [idx], 1))
    ∧ (∀ (fuel : Nat) (vm : VMState) (n : Nat) (rest : List Bytecode) (idx : Nat),
      vm.valueStack = [] →
      runLoop fuel vm (Bytecode.skipFalse n :: rest) 0 idx
        = (.vpanic popPanicMsg, [idx], 1))
    ∧ (∀ (host : Host) (name : String), isBuiltin name = true →
      applyBuiltin host name [] = .bpanic popPanicMsg) := by
  refine ⟨?_, ?_, ?_⟩
  · intro fuel vm name rest idx hempty
    rw [runLoop.eq_def]
    simp [hempty]
  · intro fuel vm n rest idx hempty
    rw [runLoop.eq_def]
    simp [hempty]
  · intro host name hb
    unfold isBuiltin at hb
    have hmem : name ∈ builtinNames := List.mem_of_elem_eq_true hb
    simp only [builtinNames, List.mem_cons, List.not_mem_nil, or_false] at hmem
    rcases hmem with h | h | h | h | h | h | h | h | h | h | h | h | h | h | h <;>
      subst h <;>
      simp [applyBuiltin, raspOpen, raspClose, raspWrite, raspRead, arithBuiltin,
        carBuiltin, cdrBuiltin, isNilBuiltin, listBuiltinFn, appendBuiltin,
        stringBuiltin, equalsBuiltin]

/-- C6 (witness). -/
theorem empty_stack_pops_panic_witness :
    runLoop 1 initialVM [Bytecode.pop "x"] 0 0
      = (.vpanic "attempted to pop a value off of an empty stack", [0], 1)
    ∧ applyBuiltin emptyHost "=" [] = .bpanic popPanicMsg :=
  ⟨empty_stack_pops_panic.1 1 initialVM "x" [] 0 rfl,
   empty_stack_pops_panic.2.2 emptyHost "=" (by decide)⟩

/-! ## Claim C3: `if` lowering and execution -/

/-- The falsiness test of `SkipFalse`: `none` for the values whose truthiness
is a runtime error. -/
def falsyB : Value → Option Bool
  | .num numv => some (F64.beq numv (.fin 0))
  | .str s => some (decide (s.length = 0))
  | .vlist l => some (decide (l.length = 0))
  | .boolean t => some (!t)
  | _ => Option.none

/-- Account for one iteration that dispatched the instruction at `i`. -/
def stepRes (i : Nat) (r : RunRes) : RunRes := (r.1, i :: r.2.1, r.2.2 + 1)

/-- Dispatching `Skip n` loads the skip counter. -/
theorem runLoop_skip_instr (fuel : Nat) (vm : VMState) (n : Nat)
    (rest : List Bytecode) (idx : Nat) :
    runLoop fuel vm (Bytecode.skip n :: rest) 0 idx
      = stepRes idx (runLoop fuel vm rest n (idx + 1)) := by
  rw [runLoop.eq_def]
  simp [stepRes]

/-- Dispatching `SkipFalse n` pops the condition and loads the skip counter
when it is falsy. -/
theorem runLoop_skipFalse_instr (fuel : Nat) (vm : VMState) (v : Value)
    (stackRest : List Value) (fv : Bool) (n : Nat) (rest : List Bytecode) (idx : Nat)
    (hstack : vm.valueStack = v :: stackRest) (hfv : falsyB v = some fv) :
    runLoop fuel vm (Bytecode.skipFalse n :: rest) 0 idx
      = stepRes idx (runLoop fuel { vm with valueStack := stackRest } rest
          (if fv then n else 0) (idx + 1)) := by
  rw [runLoop.eq_def]
  cases v with
  | num numv =>
    simp only [falsyB, Option.some.injEq] at hfv
    subst hfv
    simp [hstack, stepRes]
  | str s =>
    simp only [falsyB, Option.some.injEq] at hfv
    subst hfv
    by_cases hl : s.length = 0
    · simp [hstack, stepRes, hl]
    · simp [hstack, stepRes, hl]
  | vlist l =>
    simp only [falsyB, Option.some.injEq] at hfv
    subst hfv
    by_cases hl : l.length = 0
    · simp [hstack, stepRes, hl]
    · simp [hstack, stepRes, hl]
  | boolean t =>
    simp only [falsyB, Option.some.injEq] at hfv
    subst hfv
    simp [hstack, stepRes]
  | ident s => simp [falsyB] at hfv
  | startArgs n2 => simp [falsyB] at hfv
  | endArgs => simp [falsyB] at hfv

/-- C3 (amended): (1) `(if cond then else)` is emitted as
`C ; SkipFalse(|T|+1) ; T ; Skip(|E|+1) ; E` exactly as the claim states.
(2) Executing the part after `C` with the condition value on the stack
dispatches exactly one branch, but the VM's loop advances over ALL
`1 + |T| + 1 + |E|` remaining slots in BOTH cases (so with `C` included the
total advanced is always `|C| + 1 + |T| + 1 + |E|`, which is the claim's
formula for the then case only); moreover, in the then case a residual skip
of one instruction escapes the sequence — the continuation `after` starts
with a pending skip of 1, so the instruction following the `if` lowering is
also skipped. -/
theorem if_lowering_emits_and_dispatches_one_branch :
    (∀ (ft : List Function) (fr : Range) (c1 c2 c3 : AST) (C T E : List Bytecode),
      toBytecode ft [c1] = .ok C → toBytecode ft [c2] = .ok T →
      toBytecode ft [c3] = .ok E →
      ifBuiltin ft [AST.identifier fr "if", c1, c2, c3]
        = .ok (C ++ [Bytecode.skipFalse (T.length + 1)] ++ T ++
               [Bytecode.skip (E.length + 1)] ++ E))
    ∧ (∀ (fuel : Nat) (vm : VMState) (v : Value) (fv : Bool) (ts es : List Value)
        (after : List Bytecode) (stackRest : List Value)
        (hfv : falsyB v = some fv)
        (hts : ∀ t ∈ ts, t.isIdent = false) (hes : ∀ t ∈ es, t.isIdent = false)
        (hstack : vm.valueStack = v :: stackRest),
      runLoop fuel vm
          (Bytecode.skipFalse (ts.length + 1) :: (ts.map Bytecode.push ++
            (Bytecode.skip (es.length + 1) :: (es.map Bytecode.push ++ after)))) 0 0
        = if fv then
            seqRes (0 :: List.range' (ts.length + 2) es.length)
              (skipRes (ts.length + 1)
                (runLoop fuel { vm with valueStack := es.reverse ++ stackRest }
                  after 0 (ts.length + es.length + 2)))
          else
            seqRes (List.range' 0 (ts.length + 2))
              (skipRes es.length
                (runLoop fuel { vm with valueStack := ts.reverse ++ stackRest }
                  after 1 (ts.length + es.length + 2)))) := by
  constructor
  · intro ft fr c1 c2 c3 C T E hC hT hE
    unfold ifBuiltin
    simp [AST.isIdentifier, hC, hT, hE]
  · intro fuel vm v fv ts es after stackRest hfv hts hes hstack
    rw [runLoop_skipFalse_instr fuel vm v stackRest fv _ _ 0 hstack hfv]
    cases fv with
    | true =>
      simp only [if_true]
      rw [show ts.map Bytecode.push ++ (Bytecode.skip (es.length + 1) ::
            (es.map Bytecode.push ++ after))
          = (ts.map Bytecode.push ++ [Bytecode.skip (es.length + 1)]) ++
            (es.map Bytecode.push ++ after) from by simp]
      rw [runLoop_skip_ge fuel _ _ _ _ _ (by simp)]
      simp only [List.length_append, List.length_map, List.length_cons, List.length_nil,
        Nat.sub_self, Nat.zero_add]
      rw [runLoop_pushes fuel _ es after _ hes]
      rw [show 1 + (ts.length + 1) + es.length = ts.length + es.length + 2 from by omega,
          show 1 + (ts.length + 1) = ts.length + 2 from by omega]
      simp only [stepRes, skipRes, seqRes, Prod.mk.injEq, List.cons_append]
      refine ⟨trivial, trivial, ?_⟩
      simp only [List.length_cons, List.length_range']
      omega
    | false =>
      rw [if_neg (by simp), if_neg (by simp)]
      rw [runLoop_pushes fuel _ ts _ _ hts]
      rw [runLoop_skip_instr]
      rw [runLoop_skip_ge fuel _ _ _ _ _ (by simp)]
      simp only [List.length_map]
      rw [show es.length + 1 - es.length = 1 from by omega]
      rw [show 1 + ts.length + 1 + es.length = ts.length + es.length + 2 from by omega]
      simp only [stepRes, skipRes, seqRes, Prod.mk.injEq, List.cons_append]
      refine ⟨trivial, ?_, ?_⟩
      · rw [show ts.length + 2 = (ts.length + 1) + 1 from rfl,
            List.range'_concat, List.range'_succ]
        simp [List.append_assoc]
        omega
      · simp only [List.length_range']
        omega

/-- C3 (counterexample): for the standalone `(if 0 2 3)` — condition code
`C = [Push 0]`, then `T = [Push 2]`, else `E = [Push 3]`, all of length 1 —
the condition is falsy, the else branch executes, and the VM advances over
all 5 instructions; the claim's count `|C| + 1 + |chosen| + 0 = 3` for the
else case is wrong (the skipped `T ; Skip` slots are also advanced over). -/
theorem if_else_advanced_count_counterexample :
    toBytecode []
        [AST.expr dummyRange [AST.identifier dummyRange "if",
          AST.number dummyRange (F64.fin 0), AST.number dummyRange (F64.fin 2),
          AST.number dummyRange (F64.fin 3)]]
      = .ok [Bytecode.push (.num (.fin 0)), Bytecode.skipFalse 2,
             Bytecode.push (.num (.fin 2)), Bytecode.skip 2,
             Bytecode.push (.num (.fin 3))]
    ∧ (runVM 1 initialVM [Bytecode.push (.num (.fin 0)), Bytecode.skipFalse 2,
        Bytecode.push (.num (.fin 2)), Bytecode.skip 2,
        Bytecode.push (.num (.fin 3))]).2.2 = 5
    ∧ (runVM 1 initialVM [Bytecode.push (.num (.fin 0)), Bytecode.skipFalse 2,
        Bytecode.push (.num (.fin 2)), Bytecode.skip 2,
        Bytecode.push (.num (.fin 3))]).2.1 = [0, 1, 4]
    ∧ (5 : Nat) ≠ 1 + 1 + 1 + 0 := by
  refine ⟨?_, ?_, ?_, by decide⟩
  · simp [toBytecode, exprToBytecode, callToBytecode, ifBuiltin, AST.isIdentifier,
      hasFun, isBuiltin, builtinNames, Except.map]
  · simp [runVM, runLoop, initialVM, F64.beq, popPanicMsg]
  · simp [runVM, runLoop, initialVM, F64.beq, popPanicMsg]

/-- C3 (witness): emission and execution at `(if 1 2 3)` — truthy condition:
the then branch is dispatched, the else slots are advanced over, and a
residual skip of 1 remains for whatever follows. -/
theorem if_lowering_witness :
    ifBuiltin [] [AST.identifier dummyRange "if",
        AST.number dummyRange (F64.fin 0), AST.number dummyRange (F64.fin 2),
        AST.number dummyRange (F64.fin 3)]
      = .ok [Bytecode.push (.num (.fin 0)), Bytecode.skipFalse 2,
             Bytecode.push (.num (.fin 2)), Bytecode.skip 2,
             Bytecode.push (.num (.fin 3))]
    ∧ runLoop 0 ⟨[], [Value.num (F64.fin 1)], [], [], [], [], emptyHost⟩
        (Bytecode.skipFalse 2 :: ([Value.num (F64.fin 2)].map Bytecode.push ++
          (Bytecode.skip 2 :: ([Value.num (F64.fin 3)].map Bytecode.push ++ [])))) 0 0
      = (.ok ⟨[], [Value.num (F64.fin 2)], [], [], [], [], emptyHost⟩, [0, 1, 2], 4) := by
  constructor
  · exact if_lowering_emits_and_dispatches_one_branch.1 [] dummyRange
      (AST.number dummyRange (F64.fin 0)) (AST.number dummyRange (F64.fin 2))
      (AST.number dummyRange (F64.fin 3))
      [Bytecode.push (.num (.fin 0))] [Bytecode.push (.num (.fin 2))]
      [Bytecode.push (.num (.fin 3))]
      (by simp [toBytecode, Except.map]) (by simp [toBytecode, Except.map])
      (by simp [toBytecode, Except.map])
  · have h := if_lowering_emits_and_dispatches_one_branch.2 0
      ⟨[], [Value.num (F64.fin 1)], [], [], [], [], emptyHost⟩
      (Value.num (F64.fin 1)) false [Value.num (F64.fin 2)] [Value.num (F64.fin 3)]
      [] [] (by decide) (by decide) (by decide) rfl
    simpa [seqRes, skipRes, runLoop, List.range'] using h

/-! ## Claim C5: arity checking -/

theorem takeWhile_required (reqs opts : List Param)
    (hreq : ∀ p ∈ reqs, p.optional = false) (hopt : ∀ p ∈ opts, p.optional = true) :
    ((reqs ++ opts).takeWhile (fun p => !p.optional)).length = reqs.length := by
  induction reqs with
  | nil =>
    cases opts with
    | nil => rfl
    | cons o os =>
      have := hopt o (by simp)
      simp [List.takeWhile, this]
  | cons p ps ih =>
    have hp := hreq p (by simp)
    simp only [List.cons_append, List.takeWhile, hp]
    simp only [Bool.not_false, List.length_cons]
    rw [List.append_eq]
    rw [ih (fun q hq => hreq q (by simp [hq]))]

theorem minFunctionArgs_shape (fn : Function) (reqs opts : List Param)
    (hshape : fn.params = reqs ++ opts)
    (hreq : ∀ p ∈ reqs, p.optional = false) (hopt : ∀ p ∈ opts, p.optional = true) :
    minFunctionArgs fn = reqs.length := by
  unfold minFunctionArgs
  rw [hshape]
  exact takeWhile_required reqs opts hreq hopt

theorem maxFunctionArgs_eq_length (fn : Function) :
    maxFunctionArgs fn = fn.params.length := by
  unfold maxFunctionArgs
  have : ∀ (l : List Param) (n : Nat), l.foldl (fun c _ => c + 1) n = n + l.length := by
    intro l
    induction l with
    | nil => simp
    | cons x xs ih => intro n; simp [ih]; omega
  simpa using this fn.params 0

theorem userArgs_ok (ft : List Function) (fr : Range) (params : List Param)
    (args : List AST) (hargs : ∀ a ∈ args, a.isExpr = false)
    (hlen : args.length ≤ params.length) :
    ∃ code, userArgsToBytecode ft fr params args = .ok code := by
  induction args generalizing params with
  | nil => exact ⟨[], by simp [userArgsToBytecode]⟩
  | cons a more ih =>
    cases params with
    | nil => simp at hlen
    | cons p ps =>
      have hlen' : more.length ≤ ps.length := by simp at hlen; omega
      obtain ⟨code, hcode⟩ := ih ps (fun x hx => hargs x (by simp [hx])) hlen'
      cases a with
      | expr ar ch => exact absurd (hargs (.expr ar ch) (by simp)) (by simp [AST.isExpr])
      | identifier ar s =>
        exact ⟨Bytecode.load s :: code, by simp [userArgsToBytecode, hcode, Except.map]⟩
      | stringLit ar s =>
        exact ⟨Bytecode.push (AST.stringLit ar s).toValue :: code,
          by simp [userArgsToBytecode, hcode, Except.map]⟩
      | number ar n =>
        exact ⟨Bytecode.push (AST.number ar n).toValue :: code,
          by simp [userArgsToBytecode, hcode, Except.map]⟩

/-- C5: for a user function whose parameters are `m` required followed by
`k` optional ones, a call with `c` non-expression arguments compiles iff
`m ≤ c ≤ m + k`; outside that range compilation fails with the
"no variant of function ... takes N arguments" error. -/
theorem arity_check_compiles_iff (ft : List Function) (fn : Function) (name : String)
    (r fr : Range) (reqs opts : List Param) (args : List AST)
    (hshape : fn.params = reqs ++ opts)
    (hreq : ∀ p ∈ reqs, p.optional = false) (hopt : ∀ p ∈ opts, p.optional = true)
    (hget : getFun ft name = some fn)
    (hnb : isBuiltin name = false)
    (hnl : name ≠ "let") (hnli : name ≠ "list") (hnif : name ≠ "if")
    (hargs : ∀ a ∈ args, a.isExpr = false) :
    ((reqs.length ≤ args.length ∧ args.length ≤ reqs.length + opts.length) ↔
      ∃ code, exprToBytecode ft r (AST.identifier fr name :: args) = .ok code)
    ∧ (args.length < reqs.length ∨ reqs.length + opts.length < args.length →
      exprToBytecode ft r (AST.identifier fr name :: args)
        = if reqs.length + opts.length = reqs.length then
            .error (.failure ["no variant of function " ++ fn.name ++ " takes " ++
              toString args.length ++ " arguments (takes exactly " ++
              toString reqs.length ++ " arguments)"])
          else
            .error (.failure ["no variant of function " ++ fn.name ++ " takes " ++
              toString args.length ++ " arguments (takes " ++ toString reqs.length ++
              " to " ++ toString (reqs.length + opts.length) ++ " arguments)"])) := by
  have hhas : hasFun ft name = true := by
    by_contra hne
    have : getFun ft name = Option.none := by
      unfold getFun
      simp [Bool.not_eq_true] at hne
      simp [hne]
    rw [this] at hget
    exact Option.noConfusion hget
  have hmin : minFunctionArgs fn = reqs.length :=
    minFunctionArgs_shape fn reqs opts hshape hreq hopt
  have hmax : maxFunctionArgs fn = reqs.length + opts.length := by
    rw [maxFunctionArgs_eq_length, hshape]
    simp
  have hexpand : exprToBytecode ft r (AST.identifier fr name :: args)
      = callToBytecode ft (AST.identifier fr name) args fr name := by
    simp [exprToBytecode]
  rw [hexpand]
  unfold callToBytecode
  rw [if_neg hnl, if_neg hnli, if_neg hnif, hhas, hnb]
  simp only [Bool.not_true, Bool.not_false, Bool.false_and, Bool.false_eq_true,
    if_false, hget, hmin, hmax]
  constructor
  · by_cases hrange : args.length > reqs.length + opts.length || args.length < reqs.length
    · rw [if_pos hrange]
      constructor
      · intro hin
        simp only [Bool.or_eq_true, decide_eq_true_eq] at hrange
        omega
      · intro ⟨code, hcode⟩
        split at hcode <;> exact Except.noConfusion hcode
    · rw [if_neg hrange]
      simp only [Bool.or_eq_true, decide_eq_true_eq, not_or, not_lt] at hrange
      constructor
      · intro _
        obtain ⟨argCode, hargCode⟩ := userArgs_ok ft fr fn.params args hargs
          (by rw [hshape]; simp; omega)
        rw [hargCode]
        exact ⟨argCode ++ [Bytecode.call name args.length], rfl⟩
      · intro _
        omega
  · intro hout
    have hrange : (args.length > reqs.length + opts.length ||
        args.length < reqs.length) = true := by
      simp only [Bool.or_eq_true, decide_eq_true_eq]
      omega
    rw [if_pos hrange]

/-- A user function of shape `required^1 optional^1` for the C5 witness. -/
def arityFun : Function :=
  ⟨"f", [⟨"a", RaspType.any, false, false⟩, ⟨"b", RaspType.any, true, false⟩], "", [], "t"⟩

/-- C5 (witness): `f` takes 1 required and 1 optional parameter; a call with
one argument compiles, and a call with three arguments fails with the
"no variant" error. -/
theorem arity_check_compiles_iff_witness :
    (∃ code, exprToBytecode [arityFun] dummyRange
        [AST.identifier dummyRange "f", AST.number dummyRange (F64.fin 41)] = .ok code)
    ∧ exprToBytecode [arityFun] dummyRange
        [AST.identifier dummyRange "f", AST.number dummyRange (F64.fin 1),
         AST.number dummyRange (F64.fin 2), AST.number dummyRange (F64.fin 3)]
      = .error (.failure
          ["no variant of function f takes 3 arguments (takes 1 to 2 arguments)"]) := by
  have h := arity_check_compiles_iff [arityFun] arityFun "f" dummyRange dummyRange
    [⟨"a", RaspType.any, false, false⟩] [⟨"b", RaspType.any, true, false⟩]
  constructor
  · exact (h [AST.number dummyRange (F64.fin 41)] rfl (by decide) (by decide) rfl rfl
      (by decide) (by decide) (by decide) (by decide)).1.mp (by simp)
  · have h3 := (h [AST.number dummyRange (F64.fin 1), AST.number dummyRange (F64.fin 2),
      AST.number dummyRange (F64.fin 3)] rfl (by decide) (by decide) rfl rfl
      (by decide) (by decide) (by decide) (by decide)).2 (by simp)
    simpa [arityFun] using h3
